import Mathlib

/-!
Shallow embedding of the Intelligent Mobile Agent's action-resolution engine
(`core/qwen_vision_agent.py`, `core/action_coordinator.py`,
`core/task_execution_state.py`, `core/ui_element_parser.py`,
`core/app_utilities.py`, `intelligent_mobile_agent.py`).

Python strings are modelled as `List Char`; Python regular-expression
searches are modelled as explicit leftmost-match scanners (the patterns used
by the code are backtracking-free, so maximal munch is exact); Python floats
(the screenshot scale factors) are modelled as rationals; `int(...)` on a
float is truncation toward zero.
-/

/-- Convenience: character list of a string literal. -/
def strL (s : String) : List Char := s.toList

/-- Python whitespace (`str.strip`, regex `\s`), ASCII range. -/
def pyIsSpace (c : Char) : Bool :=
  c = ' ' || c = '\t' || c = '\n' || c = '\r' || c = '\x0b' || c = '\x0c'

/-- Left strip, as in Python `str.strip` (leading part). -/
def stripL (l : List Char) : List Char := l.dropWhile pyIsSpace

/-- Right strip, as in Python `str.strip` (trailing part). -/
def stripR (l : List Char) : List Char := (l.reverse.dropWhile pyIsSpace).reverse

/-- Python `str.strip()`. -/
def pyStrip (l : List Char) : List Char := stripL (stripR l)

/-- Python `str.split('\n')`. -/
def splitNl : List Char → List (List Char)
  | [] => [[]]
  | c :: r =>
    if c = '\n' then [] :: splitNl r
    else
      match splitNl r with
      | [] => [[c]]
      | l :: ls => (c :: l) :: ls

/-- Python slice `l[-n:]`. -/
def takeLast (n : ℕ) (l : List α) : List α := l.drop (l.length - n)

/-- Python `line.split('#', 1)[1]` (callers first check that `'#'` occurs). -/
def afterFirstHash (l : List Char) : List Char :=
  (l.dropWhile (fun c => !(c = '#'))).tail

/-- Python `str.lower()` (ASCII). -/
def lowerStr (l : List Char) : List Char := l.map Char.toLower

/-- Python `str.upper()` (ASCII). -/
def upperStr (l : List Char) : List Char := l.map Char.toUpper

/-- Python substring test `needle in hay`. -/
def containsSub (hay needle : List Char) : Bool :=
  match hay with
  | [] => needle.isEmpty
  | _ :: t => needle.isPrefixOf hay || containsSub t needle

/-- Python `needle in hay.upper()` (case-insensitive containment; the needle
is supplied already uppercased, as in the source). -/
def containsCI (hay needle : List Char) : Bool :=
  containsSub (upperStr hay) needle

/-- Numeric value of a decimal digit string, as Python `int(...)` on the
digits matched by `\d+`. -/
def digitsVal (l : List Char) : ℕ :=
  l.foldl (fun v c => 10 * v + (c.toNat - 48)) 0

/-- Decimal digit character. -/
def digitChar (d : ℕ) : Char := Char.ofNat (48 + d)

/-- Fuel-driven accumulator loop for decimal printing (kernel-reducible). -/
def natReprAux : ℕ → ℕ → List Char → List Char
  | 0, _, acc => acc
  | fuel + 1, n, acc =>
    if n < 10 then digitChar n :: acc
    else natReprAux fuel (n / 10) (digitChar (n % 10) :: acc)

/-- Decimal representation of a natural number, as Python `str(int)`. -/
def natRepr (n : ℕ) : List Char := natReprAux (n + 1) n []

/-- Decimal representation of an integer, as Python f-string formatting. -/
def intRepr (i : ℤ) : List Char :=
  if i < 0 then '-' :: natRepr i.natAbs else natRepr i.toNat

/-- Python `int(...)` applied to a real-valued product: truncation toward
zero, on the rational model of the float. -/
def pyTrunc (q : ℚ) : ℤ := q.num.tdiv q.den

/-- Single-quote character (written via its code point). -/
def squote : Char := Char.ofNat 39

/-- Double-quote character (written via its code point). -/
def dquote : Char := Char.ofNat 34

/-- Character class `['\"]` of the TYPE patterns. -/
def isQuote (c : Char) : Bool := c = squote || c = dquote

/-! ### Action grammar and parser (`qwen_vision_agent.extract_action_from_response`) -/

/-- Attempt to match `TAP\s*\((\d+),\s*(\d+)\)` anchored at the head of the
list, returning the two matched digit-group strings. The pattern is
backtracking-free, so greedy maximal munch is exact. -/
def tryTapAt (l : List Char) : Option (List Char × List Char) :=
  if (strL "TAP").isPrefixOf l then
    match (l.drop 3).dropWhile pyIsSpace with
    | [] => none
    | c0 :: r2 =>
      if c0 = '(' then
        let d1 := r2.takeWhile Char.isDigit
        if d1.isEmpty then none
        else
          match r2.dropWhile Char.isDigit with
          | [] => none
          | c1 :: r4 =>
            if c1 = ',' then
              let r5 := r4.dropWhile pyIsSpace
              let d2 := r5.takeWhile Char.isDigit
              if d2.isEmpty then none
              else
                match r5.dropWhile Char.isDigit with
                | [] => none
                | c2 :: _ => if c2 = ')' then some (d1, d2) else none
            else none
      else none
  else none

/-- Leftmost search for the TAP pattern, as `re.search`. -/
def searchTapRaw : List Char → Option (List Char × List Char)
  | [] => none
  | c :: r =>
    match tryTapAt (c :: r) with
    | some p => some p
    | none => searchTapRaw r

/-- Attempt to match `TYPE\s*['\"]` anchored at the head of the list. -/
def tryTypeOpenAt (l : List Char) : Bool :=
  if (strL "TYPE").isPrefixOf l then
    match (l.drop 4).dropWhile pyIsSpace with
    | q :: _ => isQuote q
    | [] => false
  else false

/-- Leftmost search for `TYPE\s*['\"]`, as `re.search` used as a Boolean. -/
def hasTypeOpen : List Char → Bool
  | [] => false
  | c :: r => tryTypeOpenAt (c :: r) || hasTypeOpen r

/-- Attempt to match `TYPE\s*['\"]([^'\"]+)['\"]` anchored at the head,
returning the captured text. -/
def tryTypeFullAt (l : List Char) : Option (List Char) :=
  if (strL "TYPE").isPrefixOf l then
    match (l.drop 4).dropWhile pyIsSpace with
    | q :: r2 =>
      if isQuote q then
        let txt := r2.takeWhile (fun c => !(isQuote c))
        if txt.isEmpty then none
        else
          match r2.dropWhile (fun c => !(isQuote c)) with
          | _ :: _ => some txt
          | [] => none
      else none
    | [] => none
  else none

/-- Leftmost search for the full quoted TYPE pattern. -/
def searchTypeFull : List Char → Option (List Char)
  | [] => none
  | c :: r =>
    match tryTypeFullAt (c :: r) with
    | some t => some t
    | none => searchTypeFull r

/-- TAP output line built by the parser: coordinates are scaled by the two
scale factors and truncated (`int(original * factor)`), and the trailing
`#` comment of the matched line is preserved (a default comment is
synthesized when absent). Mirrors lines 115-121 of `qwen_vision_agent.py`. -/
def scaledTapLine (sw sh : ℚ) (d1 d2 : List Char) (line : List Char) : List Char :=
  strL "TAP (" ++ intRepr (pyTrunc ((digitsVal d1 : ℚ) * sw)) ++ strL ","
    ++ intRepr (pyTrunc ((digitsVal d2 : ℚ) * sh)) ++ strL ") # "
    ++ (if line.contains '#' then pyStrip (afterFirstHash line)
        else strL "scaled coordinates")

/-- Pattern tests applied to one (already stripped) candidate line, in the
source's fixed priority. -/
def matchLine (sw sh : ℚ) (l : List Char) : Option (List Char) :=
  match searchTapRaw l with
  | some (d1, d2) => some (scaledTapLine sw sh d1 d2 l)
  | none =>
    if hasTypeOpen l then some l
    else if containsCI l (strL "SCROLL") then some l
    else if containsCI l (strL "TASK_COMPLETE") then some l
    else none

/-- Per-line step of the scan: strip, skip blank / `#` / code-fence lines,
then test the action patterns. -/
def lineResult (sw sh : ℚ) (line : List Char) : Option (List Char) :=
  let l := pyStrip line
  if l.isEmpty || (strL "#").isPrefixOf l || (strL "```").isPrefixOf l then none
  else matchLine sw sh l

/-- Ordered scan over the split lines; returns on the first match. -/
def scanLines (sw sh : ℚ) : List (List Char) → Option (List Char)
  | [] => none
  | line :: rest =>
    match lineResult sw sh line with
    | some a => some a
    | none => scanLines sw sh rest

/-- Last-resort pattern scan over the unsplit full response text
(lines 130-152 of `qwen_vision_agent.py`). -/
def fallbackScan (sw sh : ℚ) (full : List Char) : Option (List Char) :=
  match searchTapRaw full with
  | some (d1, d2) =>
    some (strL "TAP (" ++ intRepr (pyTrunc ((digitsVal d1 : ℚ) * sw)) ++ strL ","
          ++ intRepr (pyTrunc ((digitsVal d2 : ℚ) * sh)) ++ strL ") # extracted and scaled")
  | none =>
    match searchTypeFull full with
    | some txt => some (strL "TYPE " ++ squote :: txt ++ squote :: strL " # extracted action")
    | none =>
      if containsCI full (strL "SCROLL") then some (strL "SCROLL down # extracted action")
      else if containsCI full (strL "TASK_COMPLETE") then
        some (strL "TASK_COMPLETE: extracted from response")
      else none

/-- Parser `extract_action_from_response(model_response, w_scale, h_scale)`:
strip, split into lines, scan in order, and fall back to the unsplit text. -/
def extract_action_from_response (r : List Char) (sw sh : ℚ) : Option (List Char) :=
  match scanLines sw sh (splitNl (pyStrip r)) with
  | some a => some a
  | none => fallbackScan sw sh (pyStrip r)

/-! ### Action coordinator (`action_coordinator.py`) -/

/-- Scroll direction of the transport collaborator. -/
inductive ScrollDir
  | up
  | down
deriving DecidableEq, Repr

/-- Device-transport calls issued while executing an action. -/
inductive DeviceEffect
  | tap (x y : ℕ)
  | typeText (t : List Char)
  | scroll (d : ScrollDir)
deriving DecidableEq, Repr

/-- Normalized tap identity `f"TAP({g1},{g2})"` recorded in the executed
action history. -/
def tapIdentity (d1 d2 : List Char) : List Char :=
  strL "TAP(" ++ d1 ++ strL "," ++ d2 ++ strL ")"

/-- Repetition threshold set in `ActionCoordinator.__init__`. -/
def max_action_repetitions : ℕ := 2

/-- Loop guard `is_action_repeating`: count the candidate's tap identity in
the last 4 history entries and compare with the threshold. -/
def is_action_repeating (hist : List (List Char)) (cleaned : List Char) : Bool :=
  match searchTapRaw cleaned with
  | some (d1, d2) =>
    decide (max_action_repetitions ≤ (takeLast 4 hist).count (tapIdentity d1 d2))
  | none => false

/-- Primary-action selection loop of `execute_parsed_action`: the first
stripped line matching any action pattern, or the whole cleaned input when no
line matches. -/
def findMatchLine : List (List Char) → Option (List Char)
  | [] => none
  | line :: rest =>
    let l := pyStrip line
    if (searchTapRaw l).isSome || hasTypeOpen l
        || containsCI l (strL "SCROLL") || containsCI l (strL "TASK_COMPLETE") then
      some l
    else findMatchLine rest

/-- Cleaned action text used by `execute_parsed_action` after its multi-line
extraction loop. -/
def selectActionLine (cleaned : List Char) : List Char :=
  match findMatchLine (splitNl cleaned) with
  | some l => l
  | none => cleaned

/-- Result of `execute_parsed_action`: the returned completion flag, the
transport calls performed, and the updated executed-action history. -/
structure ExecResult where
  completed : Bool
  effects : List DeviceEffect
  history : List (List Char)
deriving DecidableEq, Repr

/-- Scroll direction chosen when executing a SCROLL action:
`'up' if 'up' in text.lower() else 'down'`. -/
def scrollDirOf (cleaned : List Char) : ScrollDir :=
  if containsSub (lowerStr cleaned) (strL "up") then .up else .down

/-- Coordinator `execute_parsed_action(action_command)` with the executed
action history passed explicitly. -/
def execute_parsed_action (action : List Char) (hist : List (List Char)) : ExecResult :=
  match searchTapRaw (selectActionLine (pyStrip action)) with
  | some (d1, d2) =>
    if is_action_repeating hist (selectActionLine (pyStrip action)) then
      { completed := false, effects := [.scroll .down], history := hist }
    else
      { completed := false
        effects := [.tap (digitsVal d1) (digitsVal d2)]
        history := takeLast 10 (hist ++ [tapIdentity d1 d2]) }
  | none =>
    match searchTypeFull (selectActionLine (pyStrip action)) with
    | some txt => { completed := false, effects := [.typeText txt], history := hist }
    | none =>
      if containsCI (selectActionLine (pyStrip action)) (strL "SCROLL") then
        { completed := false
          effects := [.scroll (scrollDirOf (selectActionLine (pyStrip action)))]
          history := hist }
      else if containsCI (selectActionLine (pyStrip action)) (strL "TASK_COMPLETE") then
        { completed := true, effects := [], history := hist }
      else
        { completed := false, effects := [], history := hist }

/-! ### Task execution state (`task_execution_state.py`) -/

/-- Mutable per-task state owned by the orchestrator (step counter, progress
flags, fingerprint history, executed-action history). -/
structure AgentState where
  step : ℕ
  searchInitiated : Bool
  queryEntered : Bool
  hashHist : List (List Char)
  actionHist : List (List Char)
deriving DecidableEq, Repr

/-- State after `initialize_new_task` / `reset_action_history`. -/
def initialState : AgentState :=
  { step := 0, searchInitiated := false, queryEntered := false
    hashHist := [], actionHist := [] }

/-- Stall detector `detect_screen_loop`: the current fingerprint already
appears among the last 3 recorded entries. -/
def detect_screen_loop (hist : List (List Char)) (h : List Char) : Bool :=
  decide (h ∈ takeLast 3 hist)

/-- Fingerprint recorder `record_screen_hash`: append, keep the last 5. -/
def record_screen_hash (hist : List (List Char)) (h : List Char) : List (List Char) :=
  takeLast 5 (hist ++ [h])

/-- Search-related keywords of `update_task_progress`. -/
def searchKeywords : List (List Char) :=
  [strL "search", strL "input", strL "field", strL "box", strL "bar"]

/-- Condition of the first branch of `update_task_progress`. -/
def isTapSearchAction (a : List Char) : Bool :=
  containsSub a (strL "TAP") && searchKeywords.any (fun kw => containsSub (lowerStr a) kw)

/-- Progress machine `update_task_progress(executed_action)`. -/
def update_task_progress (st : AgentState) (a : List Char) : AgentState :=
  if isTapSearchAction a then { st with searchInitiated := true }
  else if containsSub a (strL "TYPE") then { st with queryEntered := true }
  else st

/-- Coarse task-progress phase as named by the specification. -/
inductive TaskPhase
  | searchPending
  | searchStarted
  | queryEntered
deriving DecidableEq, Repr

/-- Phase reading of the two progress booleans. -/
def phase (st : AgentState) : TaskPhase :=
  if st.queryEntered then .queryEntered
  else if st.searchInitiated then .searchStarted
  else .searchPending

/-- Numeric order of the phases (forward direction of the progress machine). -/
def phaseIdx : TaskPhase → ℕ
  | .searchPending => 0
  | .searchStarted => 1
  | .queryEntered => 2

/-! ### UI element ranker (`ui_element_parser.py`) -/

/-- Interactive UI element extracted from the hierarchy snapshot (the fields
consumed by the ranking and fallback logic). -/
structure UIElement where
  center_x : ℤ
  center_y : ℤ
  display_text : List Char
  content_description : List Char
  resource_id : List Char
  element_class : List Char
  is_clickable : Bool
  is_scrollable : Bool
  element_width : ℤ
  element_height : ℤ
deriving DecidableEq, Repr

/-- Combined lowercased text analysed by the ranker:
`f"{text} {description} {resource_id}"` of the lowercased fields. -/
def combinedText (e : UIElement) : List Char :=
  lowerStr e.display_text ++ strL " " ++ lowerStr e.content_description
    ++ strL " " ++ lowerStr e.resource_id

/-- Additive relevance score of `identify_search_elements`. -/
def search_relevance_score (e : UIElement) : ℕ :=
  (if containsSub (combinedText e) (strL "search") || containsSub (combinedText e) (strL "find")
   then 5 else 0)
  + (if containsSub (lowerStr e.element_class) (strL "edittext") then 4 else 0)
  + (if containsSub (lowerStr e.resource_id) (strL "search")
        || containsSub (lowerStr e.resource_id) (strL "query")
        || containsSub (lowerStr e.resource_id) (strL "input") then 3 else 0)
  + (if containsSub (combinedText e) (strL "search")
        || containsSub (combinedText e) (strL "magnify")
        || containsSub (combinedText e) (strL "glass") then 2 else 0)
  + (if 200 < e.element_width && 30 < e.element_height then 1 else 0)

/-- Stable insertion into a descending-by-score list: the new element (which
is earlier in snapshot order) passes only strictly higher scores, so equal
scores keep snapshot order, exactly as Python's stable
`sort(key=..., reverse=True)`. -/
def insertDesc (e : UIElement) : List UIElement → List UIElement
  | [] => [e]
  | x :: xs =>
    if search_relevance_score e < search_relevance_score x then x :: insertDesc e xs
    else e :: x :: xs

/-- Stable descending sort by relevance score. -/
def sortByScoreDesc : List UIElement → List UIElement
  | [] => []
  | e :: l => insertDesc e (sortByScoreDesc l)

/-- Ranker `identify_search_elements`: keep positive scores, sort stably by
descending score, return the top 5. -/
def identify_search_elements (elements : List UIElement) : List UIElement :=
  (sortByScoreDesc (elements.filter (fun e => 0 < search_relevance_score e))).take 5

/-- Filter `get_clickable_elements`: clickable and wider than 100. -/
def get_clickable_elements (elements : List UIElement) : List UIElement :=
  elements.filter (fun e => e.is_clickable && 100 < e.element_width)

/-- Fallback tap line `generate_fallback_action` emits for a clickable
element (comment truncated to 30 characters). -/
def fallbackTapLine (e : UIElement) : List Char :=
  let descr := if e.display_text.isEmpty then
                 (if e.content_description.isEmpty then strL "interactive element"
                  else e.content_description)
               else e.display_text
  strL "TAP (" ++ intRepr e.center_x ++ strL "," ++ intRepr e.center_y
    ++ strL ") # " ++ descr.take 30

instance : Inhabited UIElement :=
  ⟨{ center_x := 0, center_y := 0, display_text := [], content_description := []
     resource_id := [], element_class := [], is_clickable := false
     is_scrollable := false, element_width := 0, element_height := 0 }⟩

/-- UI-tier fallback `generate_fallback_action(elements, step)`. -/
def generate_fallback_action (elements : List UIElement) (step : ℕ) : Option (List Char) :=
  if elements.isEmpty then none
  else
    let clickable := get_clickable_elements elements
    match clickable with
    | [] => none
    | _ :: _ => some (fallbackTapLine (clickable.getD (step % clickable.length) default))

/-! ### App utilities (`app_utilities.py`) -/

/-- Fixed fallback action list `get_predefined_fallback_actions`. -/
def get_predefined_fallback_actions : List (List Char) :=
  [strL "TAP (540,150)", strL "SCROLL down", strL "TAP (100,300)", strL "TAP (540,400)"]

/-! ### Decision orchestrator (`intelligent_mobile_agent.execute_task_instruction`) -/

/-- Environment observed in one loop iteration: whether the screenshot and
the UI hierarchy were captured, the screen fingerprint, the vision model's
raw reply (absent on any transport or model failure), the two scale factors,
and the parsed UI elements. -/
structure StepInput where
  screenshotOk : Bool
  screenHash : List Char
  visionReply : Option (List Char)
  wScale : ℚ
  hScale : ℚ
  uiOk : Bool
  uiElements : List UIElement

/-- Vision tier of the per-step decision: only consulted when a screenshot
exists, and only productive when the parser extracts an action. -/
def visionAction (inp : StepInput) : Option (List Char) :=
  if inp.screenshotOk then
    match inp.visionReply with
    | some r => extract_action_from_response r inp.wScale inp.hScale
    | none => none
  else none

/-- Search-tap line the orchestrator builds from the best ranked element
(line 123 of `intelligent_mobile_agent.py`). -/
def uiSearchTapString (e : UIElement) : List Char :=
  strL "TAP (" ++ intRepr e.center_x ++ strL "," ++ intRepr e.center_y
    ++ strL ") # Search: "
    ++ (if e.display_text.isEmpty then e.content_description else e.display_text)

/-- Completion-message regex `TASK_COMPLETE:\s*(.+)` matched at one position:
after the marker, backtrack the greedy `\s*` until `.+` can start on a
non-newline character; the capture then runs greedily to the line end. -/
def bwAt (j : ℕ) (rest : List Char) : Option (List Char) :=
  match rest.drop j with
  | [] => none
  | c :: tail => if c = '\n' then none else some (c :: tail.takeWhile (fun d => !(d = '\n')))

/-- Backtracking loop over the whitespace run length, longest first. -/
def backtrackWs : ℕ → List Char → Option (List Char)
  | 0, rest => bwAt 0 rest
  | j + 1, rest =>
    match bwAt (j + 1) rest with
    | some r => some r
    | none => backtrackWs j rest

/-- Attempt to match `TASK_COMPLETE:\s*(.+)` anchored at the head. -/
def tryCompleteAt (l : List Char) : Option (List Char) :=
  if (strL "TASK_COMPLETE:").isPrefixOf l then
    let rest := l.drop 14
    backtrackWs (rest.takeWhile pyIsSpace).length rest
  else none

/-- Leftmost search for the completion-message pattern. -/
def searchCompletion : List Char → Option (List Char)
  | [] => none
  | c :: r =>
    match tryCompleteAt (c :: r) with
    | some m => some m
    | none => searchCompletion r

/-- Task result extracted on completion (lines 146-147 of
`intelligent_mobile_agent.py`): the regex capture, or the default message. -/
def completion_message (a : List Char) : List Char :=
  match searchCompletion a with
  | some m => m
  | none => strL "Task completed successfully"

/-- Everything one loop iteration produces: the successor state, the
transport calls, the executed action (absent on a stall step), the
coordinator's completion flag, the break message of the explicit
`TASK_COMPLETE` check, and whether the step was a stall. -/
structure StepResult where
  state : AgentState
  effects : List DeviceEffect
  action : Option (List Char)
  completedFlag : Bool
  breakMsg : Option (List Char)
  stalled : Bool

/-- UI-heuristic tier (lines 114-130 of `intelligent_mobile_agent.py`):
search-element ranking while search is pending, then the generic clickable
fallback. Returns the action and the possibly updated search flag. -/
def uiTier (searchInitiated : Bool) (uiElements : List UIElement) (step : ℕ) :
    Option (List Char) × Bool :=
  let pair :=
    if !searchInitiated then
      match identify_search_elements uiElements with
      | e :: _ => (some (uiSearchTapString e), true)
      | [] => ((none : Option (List Char)), searchInitiated)
    else (none, searchInitiated)
  match pair.1 with
  | some a => (some a, pair.2)
  | none => (generate_fallback_action uiElements step, pair.2)

/-- One iteration of the main task loop of `execute_task_instruction`:
advance the step counter, stall check, fingerprint recording, the three
decision tiers, coordinated execution, progress update, completion check. -/
def agentStep (st0 : AgentState) (inp : StepInput) : StepResult :=
  let st1 : AgentState := { st0 with step := st0.step + 1 }
  if inp.screenshotOk && detect_screen_loop st1.hashHist inp.screenHash then
    { state := st1, effects := [.scroll .down], action := none
      completedFlag := false, breakMsg := none, stalled := true }
  else
    let st2 := if inp.screenshotOk then
                 { st1 with hashHist := record_screen_hash st1.hashHist inp.screenHash }
               else st1
    let va := visionAction inp
    let st3 := match va with
               | some a => update_task_progress st2 a
               | none => st2
    let tier2 := match va with
                 | some a => (some a, st3.searchInitiated)
                 | none =>
                   if inp.uiOk then uiTier st3.searchInitiated inp.uiElements st3.step
                   else (none, st3.searchInitiated)
    let st4 : AgentState := { st3 with searchInitiated := tier2.2 }
    let act := match tier2.1 with
               | some a => a
               | none =>
                 get_predefined_fallback_actions.getD
                   (st4.step % get_predefined_fallback_actions.length) []
    let ex := execute_parsed_action act st4.actionHist
    let st5 : AgentState := { st4 with actionHist := ex.history }
    let st6 := update_task_progress st5 act
    let bm := if containsSub act (strL "TASK_COMPLETE") then some (completion_message act)
              else none
    { state := st6, effects := ex.effects, action := some act
      completedFlag := ex.completed, breakMsg := bm, stalled := false }

/-- Default loop-exit message `f"Task completed in {n} steps."`. -/
def stepsMsg (st : AgentState) : List Char :=
  strL "Task completed in " ++ natRepr st.step ++ strL " steps."

/-- Fuel-driven model of the main `while` loop: stop at the step budget,
return the break message on an explicit completion, re-check the loop
condition after a stall or an ordinary step. -/
def runFrom : ℕ → ℕ → AgentState → (ℕ → StepInput) → List Char × AgentState
  | 0, _, st, _ => (stepsMsg st, st)
  | fuel + 1, maxSteps, st, inputs =>
    if maxSteps ≤ st.step then (stepsMsg st, st)
    else
      let r := agentStep st (inputs (st.step + 1))
      if r.stalled then runFrom fuel maxSteps r.state inputs
      else
        match r.breakMsg with
        | some m => (m, r.state)
        | none =>
          if r.completedFlag then (stepsMsg r.state, r.state)
          else runFrom fuel maxSteps r.state inputs


/-! ### Shape helpers used by the matcher lemmas -/

/-- Every character is Python whitespace. -/
def allSpace (l : List Char) : Prop := ∀ x ∈ l, pyIsSpace x = true

/-- Every character is a decimal digit. -/
def allDigit (l : List Char) : Prop := ∀ x ∈ l, x.isDigit = true

/-- Canonical decomposition of a string matched by `TAP\s*\((\d+),\s*(\d+)\)`
anchored at its head. -/
def tapShape (w1 d1 w2 d2 rest : List Char) : List Char :=
  strL "TAP" ++ (w1 ++ '(' :: (d1 ++ ',' :: (w2 ++ (d2 ++ ')' :: rest))))

/-- Canonical decomposition of a string matched by
`TYPE\s*['\"]([^'\"]+)['\"]` anchored at its head. -/
def typeShape (w : List Char) (q1 : Char) (txt : List Char) (q2 : Char)
    (rest : List Char) : List Char :=
  strL "TYPE" ++ (w ++ q1 :: (txt ++ q2 :: rest))

/-! ### Basic lemmas about the string utilities -/

theorem isPrefixOf_iff_exists {a l : List Char} :
    a.isPrefixOf l = true ↔ ∃ t, l = a ++ t := by
  induction a generalizing l with
  | nil => simp [List.isPrefixOf]
  | cons c a ih =>
    cases l with
    | nil => simp [List.isPrefixOf]
    | cons d l =>
      simp only [List.isPrefixOf, Bool.and_eq_true, beq_iff_eq, ih, List.cons_append,
        List.cons.injEq]
      constructor
      · rintro ⟨rfl, t, rfl⟩; exact ⟨t, rfl, rfl⟩
      · rintro ⟨t, rfl, rfl⟩; exact ⟨rfl, t, rfl⟩

theorem takeWhile_app {p : Char → Bool} {a : List Char} {c : Char} {r : List Char}
    (ha : ∀ x ∈ a, p x = true) (hc : p c = false) :
    (a ++ c :: r).takeWhile p = a := by
  induction a with
  | nil => simp [List.takeWhile_cons, hc]
  | cons x a ih =>
    have hx : p x = true := ha x (by simp)
    simp only [List.cons_append, List.takeWhile_cons, hx, if_true]
    rw [ih (fun y hy => ha y (by simp [hy]))]

theorem dropWhile_app {p : Char → Bool} {a : List Char} {c : Char} {r : List Char}
    (ha : ∀ x ∈ a, p x = true) (hc : p c = false) :
    (a ++ c :: r).dropWhile p = c :: r := by
  induction a with
  | nil => simp [List.dropWhile_cons, hc]
  | cons x a ih =>
    have hx : p x = true := ha x (by simp)
    simp only [List.cons_append, List.dropWhile_cons, hx, if_true]
    exact ih (fun y hy => ha y (by simp [hy]))

theorem dropWhile_idem {p : Char → Bool} (l : List Char) :
    (l.dropWhile p).dropWhile p = l.dropWhile p := by
  induction l with
  | nil => rfl
  | cons x a ih =>
    by_cases hx : p x = true
    · simp [List.dropWhile_cons, hx, ih]
    · simp only [Bool.not_eq_true] at hx
      simp [List.dropWhile_cons, hx]

theorem dropWhile_head_false {p : Char → Bool} {l : List Char} {c : Char} {t : List Char}
    (h : l.dropWhile p = c :: t) : p c = false := by
  induction l with
  | nil => simp at h
  | cons x a ih =>
    rw [List.dropWhile_cons] at h
    by_cases hx : p x = true
    · rw [if_pos hx] at h; exact ih h
    · rw [if_neg hx] at h
      cases h
      simpa using hx

theorem dropWhile_eq_self_head {p : Char → Bool} {l : List Char}
    (h : l.dropWhile p = l) : l = [] ∨ ∃ c t, l = c :: t ∧ p c = false := by
  cases l with
  | nil => exact Or.inl rfl
  | cons c t =>
    refine Or.inr ⟨c, t, rfl, ?_⟩
    rw [List.dropWhile_cons] at h
    by_cases hc : p c = true
    · rw [if_pos hc] at h
      have hs := (List.dropWhile_sublist (l := t) p).length_le
      have := congrArg List.length h
      simp at this
      omega
    · simpa using hc

theorem stripL_cons_of {c : Char} {t : List Char} (h : pyIsSpace c = false) :
    stripL (c :: t) = c :: t := by
  simp [stripL, List.dropWhile_cons, h]

theorem stripL_app_of {a b : List Char} (h : stripL a = a) (hne : a ≠ []) :
    stripL (a ++ b) = a ++ b := by
  rcases dropWhile_eq_self_head h with rfl | ⟨c, t, rfl, hc⟩
  · exact absurd rfl hne
  · simp [stripL, List.dropWhile_cons, hc]

theorem stripR_last {l t : List Char} {c : Char} (h : stripR l = t ++ [c]) :
    pyIsSpace c = false := by
  unfold stripR at h
  have h2 : l.reverse.dropWhile pyIsSpace = c :: t.reverse := by
    have := congrArg List.reverse h
    simpa using this
  exact dropWhile_head_false h2

theorem stripR_eq_self_of_last {t : List Char} {c : Char} (h : pyIsSpace c = false) :
    stripR (t ++ [c]) = t ++ [c] := by
  unfold stripR
  rw [List.reverse_append]
  simp only [List.reverse_cons, List.reverse_nil, List.nil_append, List.singleton_append,
    List.dropWhile_cons, h]
  simp

theorem stripR_app_of {a b : List Char} (h : stripR b = b) (hne : b ≠ []) :
    stripR (a ++ b) = a ++ b := by
  obtain ⟨t, d, rfl⟩ : ∃ t d, b = t ++ [d] := by
    refine ⟨b.dropLast, b.getLast hne, ?_⟩
    exact (List.dropLast_append_getLast hne).symm
  have hd : pyIsSpace d = false := stripR_last h
  rw [← List.append_assoc]
  exact stripR_eq_self_of_last hd

theorem stripL_suffix (l : List Char) : ∃ u, u ++ stripL l = l :=
  ⟨l.takeWhile pyIsSpace, List.takeWhile_append_dropWhile pyIsSpace l⟩

theorem pyStrip_eq_self_of {a : List Char} (h1 : stripL a = a) (h2 : stripR a = a) :
    pyStrip a = a := by
  unfold pyStrip
  rw [h2, h1]

theorem pyStrip_app_of {a mid b : List Char} (ha : stripL a = a) (hane : a ≠ [])
    (hb : stripR b = b) (hbne : b ≠ []) :
    pyStrip (a ++ mid ++ b) = a ++ mid ++ b := by
  unfold pyStrip
  rw [stripR_app_of hb hbne]
  rw [List.append_assoc, stripL_app_of ha hane]

theorem pyStrip_idem (l : List Char) : pyStrip (pyStrip l) = pyStrip l := by
  rcases h : pyStrip l with _ | ⟨c, t⟩
  · rfl
  · have hc : pyIsSpace c = false :=
      dropWhile_head_false (show (stripR l).dropWhile pyIsSpace = c :: t from h)
    obtain ⟨u, hu⟩ : ∃ u, u ++ (c :: t) = stripR l := by
      have := stripL_suffix (stripR l)
      rwa [show stripL (stripR l) = c :: t from h] at this
    obtain ⟨t', d, htd⟩ : ∃ t' d, c :: t = t' ++ [d] :=
      ⟨(c :: t).dropLast, (c :: t).getLast (by simp),
        (List.dropLast_append_getLast (by simp)).symm⟩
    have hd : pyIsSpace d = false := by
      refine stripR_last (l := l) (t := u ++ t') (c := d) ?_
      rw [← hu, htd, List.append_assoc]
    unfold pyStrip
    rw [htd, stripR_eq_self_of_last hd, ← htd, stripL_cons_of hc]

theorem mem_stripL {l : List Char} {c : Char} (h : c ∈ stripL l) : c ∈ l :=
  (List.dropWhile_sublist pyIsSpace).subset h

theorem mem_stripR {l : List Char} {c : Char} (h : c ∈ stripR l) : c ∈ l := by
  unfold stripR at h
  rw [List.mem_reverse] at h
  have := (List.dropWhile_sublist (l := l.reverse) pyIsSpace).subset h
  rwa [List.mem_reverse] at this

theorem mem_pyStrip {l : List Char} {c : Char} (h : c ∈ pyStrip l) : c ∈ l :=
  mem_stripR (mem_stripL h)

theorem splitNl_nonNl {l : List Char} (h : '\n' ∉ l) : splitNl l = [l] := by
  induction l with
  | nil => rfl
  | cons c r ih =>
    have hc : ¬(c = '\n') := fun hh => h (by simp [hh])
    have hr : '\n' ∉ r := fun hh => h (by simp [hh])
    rw [splitNl, if_neg hc, ih hr]

theorem splitNl_app {l r : List Char} (h : '\n' ∉ l) :
    splitNl (l ++ '\n' :: r) = l :: splitNl r := by
  induction l with
  | nil => simp [splitNl]
  | cons c t ih =>
    have hc : ¬(c = '\n') := fun hh => h (by simp [hh])
    have ht : '\n' ∉ t := fun hh => h (by simp [hh])
    rw [List.cons_append, splitNl, if_neg hc, ih ht]

theorem mem_splitNl {l m : List Char} (h : m ∈ splitNl l) :
    ∀ c ∈ m, c ∈ l ∧ ¬(c = '\n') := by
  induction l generalizing m with
  | nil =>
    simp only [splitNl, List.mem_singleton] at h
    subst h
    intro c hc
    simp at hc
  | cons d r ih =>
    rw [splitNl] at h
    by_cases hd : d = '\n'
    · rw [if_pos hd] at h
      rcases List.mem_cons.mp h with rfl | hmem
      · intro c hc; simp at hc
      · intro c hc
        obtain ⟨h1, h2⟩ := ih hmem c hc
        exact ⟨by simp [h1], h2⟩
    · rw [if_neg hd] at h
      rcases hrec : splitNl r with _ | ⟨l0, ls⟩
      · rw [hrec] at h
        simp only [List.mem_singleton] at h
        subst h
        intro c hc
        rcases List.mem_singleton.mp hc with rfl
        exact ⟨by simp, hd⟩
      · rw [hrec] at h
        rcases List.mem_cons.mp h with rfl | hmem
        · intro c hc
          rcases List.mem_cons.mp hc with rfl | hc2
          · exact ⟨by simp, hd⟩
          · have : l0 ∈ splitNl r := by rw [hrec]; simp
            obtain ⟨h1, h2⟩ := ih this c hc2
            exact ⟨by simp [h1], h2⟩
        · intro c hc
          have : m ∈ splitNl r := by rw [hrec]; simp [hmem]
          obtain ⟨h1, h2⟩ := ih this c hc
          exact ⟨by simp [h1], h2⟩

theorem containsSub_iff {hay needle : List Char} :
    containsSub hay needle = true ↔ ∃ u v, hay = u ++ needle ++ v := by
  induction hay with
  | nil =>
    simp only [containsSub, List.isEmpty_iff]
    constructor
    · rintro rfl; exact ⟨[], [], rfl⟩
    · rintro ⟨u, v, h⟩
      rcases u with _ | _ <;> rcases needle with _ | _ <;> simp_all
  | cons c t ih =>
    simp only [containsSub, Bool.or_eq_true, isPrefixOf_iff_exists, ih]
    constructor
    · rintro (⟨v, hv⟩ | ⟨u, v, huv⟩)
      · exact ⟨[], v, by simpa using hv⟩
      · exact ⟨c :: u, v, by simp [huv]⟩
    · rintro ⟨u, v, huv⟩
      rcases u with _ | ⟨x, u⟩
      · exact Or.inl ⟨v, by simpa using huv⟩
      · simp only [List.cons_append, List.cons.injEq] at huv
        exact Or.inr ⟨u, v, huv.2⟩

theorem containsSub_head_mem {hay : List Char} {c : Char} {n : List Char}
    (h : containsSub hay (c :: n) = true) : c ∈ hay := by
  obtain ⟨u, v, huv⟩ := containsSub_iff.mp h
  subst huv
  simp

theorem containsSub_of_parts {hay u v needle : List Char} (h : hay = u ++ needle ++ v) :
    containsSub hay needle = true :=
  containsSub_iff.mpr ⟨u, v, h⟩

/-! ### Lemmas about decimal printing and truncation -/

theorem digitChar_toNat {d : ℕ} (h : d < 10) : (digitChar d).toNat = 48 + d := by
  interval_cases d <;> decide

theorem digitChar_isDigit {d : ℕ} (h : d < 10) : (digitChar d).isDigit = true := by
  interval_cases d <;> decide

theorem natReprAux_shift :
    ∀ n fuel acc, n < fuel → natReprAux fuel n acc = natRepr n ++ acc := by
  intro n
  induction n using Nat.strong_induction_on with
  | _ n ihn =>
    intro fuel acc h
    cases fuel with
    | zero => omega
    | succ f =>
      by_cases h10 : n < 10
      · rw [natReprAux, if_pos h10, natRepr, natReprAux, if_pos h10]
        simp
      · rw [natReprAux, if_neg h10]
        have hn0 : 0 < n := by omega
        have hdiv : n / 10 < n := Nat.div_lt_self hn0 (by norm_num)
        rw [ihn (n / 10) hdiv f (digitChar (n % 10) :: acc) (by omega)]
        have hrepr : natRepr n = natRepr (n / 10) ++ [digitChar (n % 10)] := by
          rw [natRepr, natReprAux, if_neg h10]
          rw [ihn (n / 10) hdiv n [digitChar (n % 10)] (by omega)]
        rw [hrepr, List.append_assoc]
        simp

theorem natRepr_peel {n : ℕ} (h : ¬ n < 10) :
    natRepr n = natRepr (n / 10) ++ [digitChar (n % 10)] := by
  rw [natRepr, natReprAux, if_neg h]
  have hn0 : 0 < n := by omega
  have hdiv : n / 10 < n := Nat.div_lt_self hn0 (by norm_num)
  exact natReprAux_shift (n / 10) n [digitChar (n % 10)] (by omega)

theorem natRepr_small {n : ℕ} (h : n < 10) : natRepr n = [digitChar n] := by
  rw [natRepr, natReprAux, if_pos h]

theorem natRepr_ne_nil (n : ℕ) : natRepr n ≠ [] := by
  by_cases h : n < 10
  · rw [natRepr_small h]; simp
  · rw [natRepr_peel h]; simp

theorem natRepr_digits : ∀ n, ∀ c ∈ natRepr n, c.isDigit = true := by
  intro n
  induction n using Nat.strong_induction_on with
  | _ n ih =>
    by_cases h : n < 10
    · rw [natRepr_small h]
      intro c hc
      rcases List.mem_singleton.mp hc with rfl
      exact digitChar_isDigit h
    · rw [natRepr_peel h]
      intro c hc
      rcases List.mem_append.mp hc with hc1 | hc2
      · have hn0 : 0 < n := by omega
        exact ih (n / 10) (Nat.div_lt_self hn0 (by norm_num)) c hc1
      · rcases List.mem_singleton.mp hc2 with rfl
        exact digitChar_isDigit (Nat.mod_lt n (by norm_num))

theorem digitsVal_append_singleton (l : List Char) (c : Char) :
    digitsVal (l ++ [c]) = 10 * digitsVal l + (c.toNat - 48) := by
  unfold digitsVal
  rw [List.foldl_append]
  rfl

theorem digitsVal_natRepr : ∀ n, digitsVal (natRepr n) = n := by
  intro n
  induction n using Nat.strong_induction_on with
  | _ n ih =>
    by_cases h : n < 10
    · rw [natRepr_small h]
      show digitsVal ([] ++ [digitChar n]) = n
      rw [digitsVal_append_singleton, digitChar_toNat h]
      simp [digitsVal]
    · rw [natRepr_peel h, digitsVal_append_singleton]
      have hn0 : 0 < n := by omega
      rw [ih (n / 10) (Nat.div_lt_self hn0 (by norm_num))]
      rw [digitChar_toNat (Nat.mod_lt n (by norm_num))]
      omega

theorem isDigit_toNat_bounds {c : Char} (h : c.isDigit = true) :
    48 ≤ c.toNat ∧ c.toNat ≤ 57 := by
  simp only [Char.isDigit, Bool.and_eq_true, decide_eq_true_eq] at h
  exact ⟨h.1, h.2⟩

theorem isDigit_ne {c d : Char} (h : c.isDigit = true)
    (hd : d.toNat < 48 ∨ 57 < d.toNat) : c ≠ d := by
  obtain ⟨h1, h2⟩ := isDigit_toNat_bounds h
  intro he
  have heq : c.toNat = d.toNat := by rw [he]
  omega

theorem isDigit_not_space {c : Char} (h : c.isDigit = true) : pyIsSpace c = false := by
  obtain ⟨h1, h2⟩ := isDigit_toNat_bounds h
  unfold pyIsSpace
  have e1 : c ≠ ' ' := isDigit_ne h (by decide)
  have e2 : c ≠ '\t' := isDigit_ne h (by decide)
  have e3 : c ≠ '\n' := isDigit_ne h (by decide)
  have e4 : c ≠ '\r' := isDigit_ne h (by decide)
  have e5 : c ≠ '\x0b' := isDigit_ne h (by decide)
  have e6 : c ≠ '\x0c' := isDigit_ne h (by decide)
  simp [e1, e2, e3, e4, e5, e6]

theorem intRepr_nonneg {i : ℤ} (h : 0 ≤ i) : intRepr i = natRepr i.toNat := by
  rw [intRepr, if_neg (by omega)]

theorem intRepr_natCast (n : ℕ) : intRepr (n : ℤ) = natRepr n := by
  rw [intRepr_nonneg (by positivity)]
  simp

theorem pyTrunc_natCast (n : ℕ) : pyTrunc ((n : ℚ)) = (n : ℤ) := by
  unfold pyTrunc
  rw [Rat.num_natCast, Rat.den_natCast]
  simp [Int.tdiv]

theorem pyTrunc_nonneg {q : ℚ} (h : 0 ≤ q) : 0 ≤ pyTrunc q := by
  unfold pyTrunc
  have hnum : 0 ≤ q.num := Rat.num_nonneg.mpr h
  have hden : (0 : ℤ) ≤ (q.den : ℤ) := by positivity
  exact Int.tdiv_nonneg hnum hden

theorem pyTrunc_eq_floor {q : ℚ} (h : 0 ≤ q) : pyTrunc q = ⌊q⌋ := by
  unfold pyTrunc
  rw [Rat.floor_def]
  exact Int.tdiv_eq_ediv (Rat.num_nonneg.mpr h) (by positivity)

/-! ### Decomposition lemmas for the TAP matcher -/

theorem isEmpty_false_of_ne_nil {l : List Char} (h : l ≠ []) : l.isEmpty = false := by
  cases l with
  | nil => exact absurd rfl h
  | cons c t => rfl

theorem tryTapAt_mk {w1 d1 w2 d2 rest : List Char}
    (hw1 : allSpace w1) (hd1 : allDigit d1) (hd1n : d1 ≠ [])
    (hw2 : allSpace w2) (hd2 : allDigit d2) (hd2n : d2 ≠ []) :
    tryTapAt (tapShape w1 d1 w2 d2 rest) = some (d1, d2) := by
  unfold tapShape tryTapAt
  rw [if_pos (isPrefixOf_iff_exists.mpr ⟨_, rfl⟩)]
  rw [show (3 : ℕ) = (strL "TAP").length from rfl, List.drop_left]
  rw [dropWhile_app hw1 (by decide)]
  simp only []
  rw [if_pos trivial]
  have htake1 : (d1 ++ ',' :: (w2 ++ (d2 ++ ')' :: rest))).takeWhile Char.isDigit = d1 :=
    takeWhile_app hd1 (by decide)
  have hdrop1 : (d1 ++ ',' :: (w2 ++ (d2 ++ ')' :: rest))).dropWhile Char.isDigit
      = ',' :: (w2 ++ (d2 ++ ')' :: rest)) :=
    dropWhile_app hd1 (by decide)
  simp only [htake1, hdrop1]
  rw [if_neg (by simp [isEmpty_false_of_ne_nil hd1n])]
  rw [if_pos trivial]
  rcases d2 with _ | ⟨e, d2t⟩
  · exact absurd rfl hd2n
  · have he : e.isDigit = true := hd2 e (by simp)
    have hdropw2 : (w2 ++ (e :: d2t ++ ')' :: rest)).dropWhile pyIsSpace
        = e :: d2t ++ ')' :: rest := by
      rw [show (e :: d2t ++ ')' :: rest) = e :: (d2t ++ ')' :: rest) from rfl]
      exact dropWhile_app hw2 (isDigit_not_space he)
    simp only [hdropw2]
    have htake2 : (e :: d2t ++ ')' :: rest).takeWhile Char.isDigit = e :: d2t :=
      takeWhile_app hd2 (by decide)
    have hdrop2 : (e :: d2t ++ ')' :: rest).dropWhile Char.isDigit = ')' :: rest :=
      dropWhile_app hd2 (by decide)
    simp only [htake2, hdrop2]
    rw [if_neg (by simp)]
    rw [if_pos trivial]

theorem tryTapAt_sound {l : List Char} {d1 d2 : List Char}
    (h : tryTapAt l = some (d1, d2)) :
    ∃ w1 w2 rest, l = tapShape w1 d1 w2 d2 rest ∧ allSpace w1 ∧ allDigit d1 ∧ d1 ≠ []
      ∧ allSpace w2 ∧ allDigit d2 ∧ d2 ≠ [] := by
  unfold tryTapAt at h
  by_cases hp : (strL "TAP").isPrefixOf l = true
  · rw [if_pos hp] at h
    obtain ⟨x, rfl⟩ := isPrefixOf_iff_exists.mp hp
    rw [show (3 : ℕ) = (strL "TAP").length from rfl, List.drop_left] at h
    rcases hdw : x.dropWhile pyIsSpace with _ | ⟨c0, r2⟩ <;> rw [hdw] at h
    · simp at h
    · simp only [] at h
      by_cases hc0 : c0 = '('
      · subst hc0
        rw [if_pos rfl] at h
        have hx : x = x.takeWhile pyIsSpace ++ '(' :: r2 := by
          conv_lhs => rw [← List.takeWhile_append_dropWhile pyIsSpace x]
          rw [hdw]
        by_cases he1 : (r2.takeWhile Char.isDigit).isEmpty = true
        · rw [if_pos he1] at h; simp at h
        · rw [if_neg he1] at h
          rcases hdd : r2.dropWhile Char.isDigit with _ | ⟨c1, r4⟩ <;> rw [hdd] at h
          · simp at h
          · simp only [] at h
            by_cases hc1 : c1 = ','
            · subst hc1
              rw [if_pos rfl] at h
              have hr2 : r2 = r2.takeWhile Char.isDigit ++ ',' :: r4 := by
                conv_lhs => rw [← List.takeWhile_append_dropWhile Char.isDigit r2]
                rw [hdd]
              by_cases he2 : ((r4.dropWhile pyIsSpace).takeWhile Char.isDigit).isEmpty = true
              · rw [if_pos he2] at h; simp at h
              · rw [if_neg he2] at h
                rcases hdd2 : (r4.dropWhile pyIsSpace).dropWhile Char.isDigit
                  with _ | ⟨c2, r6⟩ <;> rw [hdd2] at h
                · simp at h
                · simp only [] at h
                  by_cases hc2 : c2 = ')'
                  · subst hc2
                    rw [if_pos rfl] at h
                    simp only [Option.some.injEq, Prod.mk.injEq] at h
                    obtain ⟨hd1e, hd2e⟩ := h
                    have hr4 : r4 = r4.takeWhile pyIsSpace
                        ++ ((r4.dropWhile pyIsSpace).takeWhile Char.isDigit ++ ')' :: r6) := by
                      conv_lhs => rw [← List.takeWhile_append_dropWhile pyIsSpace r4]
                      congr 1
                      conv_lhs =>
                        rw [← List.takeWhile_append_dropWhile Char.isDigit
                          (r4.dropWhile pyIsSpace)]
                      rw [hdd2]
                    refine ⟨x.takeWhile pyIsSpace, r4.takeWhile pyIsSpace, r6, ?_, ?_, ?_, ?_,
                      ?_, ?_, ?_⟩
                    · unfold tapShape
                      rw [hd1e] at hr2
                      rw [hd2e] at hr4
                      congr 1
                      conv_lhs => rw [hx, hr2, hr4]
                    · intro y hy; exact List.mem_takeWhile_imp hy
                    · intro y hy; rw [← hd1e] at hy; exact List.mem_takeWhile_imp hy
                    · rw [← hd1e]; intro hnil; rw [hnil] at he1; simp at he1
                    · intro y hy; exact List.mem_takeWhile_imp hy
                    · intro y hy; rw [← hd2e] at hy; exact List.mem_takeWhile_imp hy
                    · rw [← hd2e]; intro hnil; rw [hnil] at he2; simp at he2
                  · rw [if_neg hc2] at h; simp at h
            · rw [if_neg hc1] at h; simp at h
      · rw [if_neg hc0] at h; simp at h
  · rw [if_neg hp] at h; simp at h

theorem tryTapAt_nil : tryTapAt [] = none := by decide

theorem searchTapRaw_head {l : List Char} {p : List Char × List Char}
    (h : tryTapAt l = some p) : searchTapRaw l = some p := by
  cases l with
  | nil => rw [tryTapAt_nil] at h; cases h
  | cons c r =>
    rw [searchTapRaw, h]

theorem searchTapRaw_sound {l : List Char} {p : List Char × List Char}
    (h : searchTapRaw l = some p) : ∃ u s, l = u ++ s ∧ tryTapAt s = some p := by
  induction l with
  | nil => cases h
  | cons c r ih =>
    rw [searchTapRaw] at h
    rcases ht : tryTapAt (c :: r) with _ | q
    · rw [ht] at h
      simp only [] at h
      obtain ⟨u, s, hus, hs⟩ := ih h
      exact ⟨c :: u, s, by simp [hus], hs⟩
    · rw [ht] at h
      simp only [Option.some.injEq] at h
      subst h
      exact ⟨[], c :: r, by simp, ht⟩

theorem searchTapRaw_some_of_suffix {u s : List Char} {p : List Char × List Char}
    (h : tryTapAt s = some p) : ∃ q, searchTapRaw (u ++ s) = some q := by
  induction u with
  | nil => exact ⟨p, searchTapRaw_head h⟩
  | cons c u ih =>
    obtain ⟨q, hq⟩ := ih
    rw [List.cons_append, searchTapRaw]
    rcases ht : tryTapAt (c :: (u ++ s)) with _ | q2
    · rw [hq]
      exact ⟨q, rfl⟩
    · exact ⟨q2, rfl⟩

theorem tapShape_assoc (w1 d1 w2 d2 rest : List Char) :
    tapShape w1 d1 w2 d2 rest
      = (strL "TAP" ++ w1 ++ '(' :: d1 ++ [','] ++ w2 ++ d2) ++ ')' :: rest := by
  unfold tapShape
  simp

theorem tryTapAt_append {s e : List Char} {p : List Char × List Char}
    (h : tryTapAt s = some p) : tryTapAt (s ++ e) = some p := by
  obtain ⟨d1, d2⟩ := p
  obtain ⟨w1, w2, rest, rfl, hw1, hd1, hd1n, hw2, hd2, hd2n⟩ := tryTapAt_sound h
  have : tapShape w1 d1 w2 d2 rest ++ e = tapShape w1 d1 w2 d2 (rest ++ e) := by
    unfold tapShape
    simp
  rw [this]
  exact tryTapAt_mk hw1 hd1 hd1n hw2 hd2 hd2n

theorem searchTapRaw_append_cases {a b : List Char} {p : List Char × List Char}
    (h : searchTapRaw (a ++ b) = some p) :
    (∃ t, t ≠ [] ∧ (∃ s, a = s ++ t) ∧ tryTapAt (t ++ b) = some p)
      ∨ searchTapRaw b = some p := by
  induction a with
  | nil => right; simpa using h
  | cons c a ih =>
    rw [List.cons_append, searchTapRaw] at h
    rcases ht : tryTapAt (c :: (a ++ b)) with _ | q
    · rw [ht] at h
      simp only [] at h
      rcases ih h with ⟨t, htn, ⟨s, hs⟩, hat⟩ | hb
      · exact Or.inl ⟨t, htn, ⟨c :: s, by simp [hs]⟩, hat⟩
      · exact Or.inr hb
    · rw [ht] at h
      simp only [Option.some.injEq] at h
      subst h
      exact Or.inl ⟨c :: a, by simp, ⟨[], rfl⟩, by rw [← List.cons_append] at ht; exact ht⟩

theorem append_split_on_mem {s b a rest : List Char} {c : Char}
    (h : s ++ b = a ++ c :: rest) (hc : c ∉ b) :
    ∃ t, s = a ++ c :: t ∧ rest = t ++ b := by
  rcases List.append_eq_append_iff.mp h with ⟨a', ha, hb⟩ | ⟨c', hs, hrest⟩
  · exact absurd (by rw [hb]; simp) hc
  · cases c' with
    | nil =>
      rw [List.nil_append] at hrest
      exact absurd (by rw [← hrest]; simp) hc
    | cons x t =>
      rw [List.cons_append] at hrest
      injection hrest with h1 h2
      subst h1
      exact ⟨t, by rw [hs], h2⟩

theorem tryTapAt_of_append_no_close {t b : List Char} {p : List Char × List Char}
    (h : tryTapAt (t ++ b) = some p) (hb : ')' ∉ b) : tryTapAt t = some p := by
  obtain ⟨d1, d2⟩ := p
  obtain ⟨w1, w2, rest, hshape, hw1, hd1, hd1n, hw2, hd2, hd2n⟩ := tryTapAt_sound h
  rw [tapShape_assoc] at hshape
  obtain ⟨t', ht, _⟩ := append_split_on_mem hshape hb
  have : t = tapShape w1 d1 w2 d2 t' := by
    rw [tapShape_assoc]
    exact ht
  rw [this]
  exact tryTapAt_mk hw1 hd1 hd1n hw2 hd2 hd2n

theorem searchTapRaw_infix {u v txt : List Char} {p : List Char × List Char}
    (h : searchTapRaw txt = some p) : ∃ q, searchTapRaw (u ++ txt ++ v) = some q := by
  obtain ⟨u', s, rfl, hs⟩ := searchTapRaw_sound h
  have h2 : tryTapAt (s ++ v) = some p := tryTapAt_append hs
  have : u ++ (u' ++ s) ++ v = (u ++ u') ++ (s ++ v) := by simp
  rw [this]
  exact searchTapRaw_some_of_suffix h2

/-! ### Decomposition lemmas for the TYPE matchers -/

theorem tryTypeOpenAt_mk {w rest : List Char} {q : Char}
    (hw : allSpace w) (hq : isQuote q = true) :
    tryTypeOpenAt (strL "TYPE" ++ (w ++ q :: rest)) = true := by
  unfold tryTypeOpenAt
  rw [if_pos (isPrefixOf_iff_exists.mpr ⟨_, rfl⟩)]
  rw [show (4 : ℕ) = (strL "TYPE").length from rfl, List.drop_left]
  have hqs : pyIsSpace q = false := by
    rcases (Bool.or_eq_true _ _).mp hq with h1 | h1
    · rw [decide_eq_true_eq] at h1; subst h1; decide
    · rw [decide_eq_true_eq] at h1; subst h1; decide
  rw [dropWhile_app hw hqs]
  exact hq

theorem hasTypeOpen_head {l : List Char} (h : tryTypeOpenAt l = true) :
    hasTypeOpen l = true := by
  cases l with
  | nil => exact absurd h (by decide)
  | cons c r => rw [hasTypeOpen, h, Bool.true_or]

theorem tryTypeFullAt_sound {l txt : List Char} (h : tryTypeFullAt l = some txt) :
    ∃ w q1 q2 rest, l = typeShape w q1 txt q2 rest ∧ allSpace w ∧ isQuote q1 = true
      ∧ isQuote q2 = true ∧ txt ≠ [] ∧ (∀ c ∈ txt, isQuote c = false) := by
  unfold tryTypeFullAt at h
  by_cases hp : (strL "TYPE").isPrefixOf l = true
  · rw [if_pos hp] at h
    obtain ⟨x, rfl⟩ := isPrefixOf_iff_exists.mp hp
    rw [show (4 : ℕ) = (strL "TYPE").length from rfl, List.drop_left] at h
    rcases hdw : x.dropWhile pyIsSpace with _ | ⟨q, r2⟩ <;> rw [hdw] at h
    · simp at h
    · simp only [] at h
      by_cases hq : isQuote q = true
      · rw [if_pos hq] at h
        by_cases he : (r2.takeWhile fun c => !(isQuote c)).isEmpty = true
        · rw [if_pos he] at h; simp at h
        · rw [if_neg he] at h
          rcases hdd : (r2.dropWhile fun c => !(isQuote c)) with _ | ⟨q2, r3⟩ <;>
            rw [hdd] at h
          · simp at h
          · simp only [Option.some.injEq] at h
            have hx : x = x.takeWhile pyIsSpace ++ q :: r2 := by
              conv_lhs => rw [← List.takeWhile_append_dropWhile pyIsSpace x]
              rw [hdw]
            have hr2 : r2 = (r2.takeWhile fun c => !(isQuote c)) ++ q2 :: r3 := by
              conv_lhs => rw [← List.takeWhile_append_dropWhile (fun c => !(isQuote c)) r2]
              rw [hdd]
            have hq2 : isQuote q2 = true := by
              have := dropWhile_head_false hdd
              simpa using this
            refine ⟨x.takeWhile pyIsSpace, q, q2, r3, ?_, ?_, hq, hq2, ?_, ?_⟩
            · unfold typeShape
              congr 1
              conv_lhs => rw [hx, hr2, h]
            · intro y hy; exact List.mem_takeWhile_imp hy
            · rw [← h]; intro hnil; rw [hnil] at he; simp at he
            · intro c hc
              rw [← h] at hc
              have := List.mem_takeWhile_imp hc
              simpa using this
      · rw [if_neg hq] at h; simp at h
  · rw [if_neg hp] at h; simp at h

theorem searchTypeFull_sound {l txt : List Char} (h : searchTypeFull l = some txt) :
    ∃ u w q1 q2 rest, l = u ++ typeShape w q1 txt q2 rest ∧ allSpace w
      ∧ isQuote q1 = true ∧ isQuote q2 = true ∧ txt ≠ []
      ∧ (∀ c ∈ txt, isQuote c = false) := by
  induction l with
  | nil => cases h
  | cons c r ih =>
    rw [searchTypeFull] at h
    rcases ht : tryTypeFullAt (c :: r) with _ | t
    · rw [ht] at h
      simp only [] at h
      obtain ⟨u, w, q1, q2, rest, hl, hw, hq1, hq2, htn, htq⟩ := ih h
      exact ⟨c :: u, w, q1, q2, rest, by simp [hl], hw, hq1, hq2, htn, htq⟩
    · rw [ht] at h
      simp only [Option.some.injEq] at h
      subst h
      obtain ⟨w, q1, q2, rest, hl, hw, hq1, hq2, htn, htq⟩ := tryTypeFullAt_sound ht
      exact ⟨[], w, q1, q2, rest, by simp [hl], hw, hq1, hq2, htn, htq⟩

theorem tryTapAt_none_of_head {c : Char} {r : List Char} (hc : ¬ c = 'T') :
    tryTapAt (c :: r) = none := by
  unfold tryTapAt
  rw [if_neg]
  intro hp
  obtain ⟨t, ht⟩ := isPrefixOf_iff_exists.mp hp
  rw [show strL "TAP" = 'T' :: strL "AP" from rfl, List.cons_append] at ht
  injection ht with h1 _
  exact hc h1

theorem tryTypeOpenAt_none_of_head {c : Char} {r : List Char} (hc : ¬ c = 'T') :
    tryTypeOpenAt (c :: r) = false := by
  unfold tryTypeOpenAt
  rw [if_neg]
  intro hp
  obtain ⟨t, ht⟩ := isPrefixOf_iff_exists.mp hp
  rw [show strL "TYPE" = 'T' :: strL "YPE" from rfl, List.cons_append] at ht
  injection ht with h1 _
  exact hc h1

theorem searchTapRaw_none_no_T {l : List Char} (h : ∀ c ∈ l, ¬ c = 'T') :
    searchTapRaw l = none := by
  induction l with
  | nil => rfl
  | cons c r ih =>
    rw [searchTapRaw, tryTapAt_none_of_head (h c (by simp))]
    exact ih (fun d hd => h d (by simp [hd]))

theorem hasTypeOpen_false_no_T {l : List Char} (h : ∀ c ∈ l, ¬ c = 'T') :
    hasTypeOpen l = false := by
  induction l with
  | nil => rfl
  | cons c r ih =>
    rw [hasTypeOpen, tryTypeOpenAt_none_of_head (h c (by simp))]
    rw [ih (fun d hd => h d (by simp [hd]))]
    rfl

/-! ### Further strip and scan lemmas -/

theorem stripR_sublist (l : List Char) : (stripR l).Sublist l := by
  unfold stripR
  have h := List.dropWhile_sublist (l := l.reverse) pyIsSpace
  have h2 := h.reverse
  simpa using h2

theorem stripL_sublist (l : List Char) : (stripL l).Sublist l :=
  List.dropWhile_sublist pyIsSpace

theorem pyStrip_sublist (l : List Char) : (pyStrip l).Sublist l :=
  (stripL_sublist (stripR l)).trans (stripR_sublist l)

theorem strip_eq_self_parts {c : List Char} (h : pyStrip c = c) :
    stripL c = c ∧ stripR c = c := by
  have h0 : stripL (stripR c) = c := h
  have h1 : (stripL (stripR c)).length = c.length := by rw [h0]
  have h2 : (stripL (stripR c)).Sublist (stripR c) := stripL_sublist _
  have h3 : (stripR c).Sublist c := stripR_sublist c
  have h4 : (stripR c).length = c.length := le_antisymm h3.length_le (by
    have := h2.length_le
    omega)
  have h5 : stripR c = c := h3.eq_of_length h4
  refine ⟨?_, h5⟩
  calc stripL c = stripL (stripR c) := by rw [h5]
    _ = c := h0

theorem stripR_append (a b : List Char) :
    stripR (a ++ b) = if stripR b = [] then stripR a else a ++ stripR b := by
  unfold stripR
  rw [List.reverse_append, List.dropWhile_append]
  by_cases hb : (b.reverse.dropWhile pyIsSpace).isEmpty = true
  · rw [if_pos hb]
    rw [if_pos (by rw [List.isEmpty_iff] at hb; simp [hb])]
  · rw [if_neg hb]
    rw [if_neg (by
      intro hh
      rw [List.isEmpty_iff] at hb
      apply hb
      have := congrArg List.reverse hh
      simpa using this)]
    simp

theorem afterFirstHash_subset {l : List Char} {c : Char} (h : c ∈ afterFirstHash l) :
    c ∈ l := by
  unfold afterFirstHash at h
  exact (List.dropWhile_sublist _).subset ((List.tail_sublist _).subset h)

theorem extract_cases {s out : List Char} {sw sh : ℚ}
    (h : extract_action_from_response s sw sh = some out) :
    scanLines sw sh (splitNl (pyStrip s)) = some out
      ∨ (scanLines sw sh (splitNl (pyStrip s)) = none
          ∧ fallbackScan sw sh (pyStrip s) = some out) := by
  unfold extract_action_from_response at h
  rcases hs : scanLines sw sh (splitNl (pyStrip s)) with _ | a
  · rw [hs] at h
    simp only [] at h
    exact Or.inr ⟨rfl, h⟩
  · rw [hs] at h
    simp only [Option.some.injEq] at h
    exact Or.inl (congrArg some h)

theorem scanLines_sound {L : List (List Char)} {out : List Char} {sw sh : ℚ}
    (h : scanLines sw sh L = some out) :
    ∃ line ∈ L, lineResult sw sh line = some out := by
  induction L with
  | nil => cases h
  | cons l ls ih =>
    rw [scanLines] at h
    rcases hl : lineResult sw sh l with _ | a
    · rw [hl] at h
      simp only [] at h
      obtain ⟨line, hmem, hres⟩ := ih h
      exact ⟨line, by simp [hmem], hres⟩
    · rw [hl] at h
      simp only [Option.some.injEq] at h
      subst h
      exact ⟨l, by simp, hl⟩

theorem lineResult_sound {line out : List Char} {sw sh : ℚ}
    (h : lineResult sw sh line = some out) :
    (pyStrip line).isEmpty = false
      ∧ (strL "#").isPrefixOf (pyStrip line) = false
      ∧ (strL "```").isPrefixOf (pyStrip line) = false
      ∧ matchLine sw sh (pyStrip line) = some out := by
  unfold lineResult at h
  by_cases hc : ((pyStrip line).isEmpty || (strL "#").isPrefixOf (pyStrip line)
      || (strL "```").isPrefixOf (pyStrip line)) = true
  · rw [if_pos hc] at h; cases h
  · rw [if_neg hc] at h
    simp only [Bool.or_eq_true, not_or, Bool.not_eq_true] at hc
    exact ⟨hc.1.1, hc.1.2, hc.2, h⟩

theorem matchLine_cases {l out : List Char} {sw sh : ℚ}
    (h : matchLine sw sh l = some out) :
    (∃ d1 d2, searchTapRaw l = some (d1, d2) ∧ out = scaledTapLine sw sh d1 d2 l)
      ∨ (searchTapRaw l = none ∧ hasTypeOpen l = true ∧ out = l)
      ∨ (searchTapRaw l = none ∧ hasTypeOpen l = false
          ∧ containsCI l (strL "SCROLL") = true ∧ out = l)
      ∨ (searchTapRaw l = none ∧ hasTypeOpen l = false
          ∧ containsCI l (strL "SCROLL") = false
          ∧ containsCI l (strL "TASK_COMPLETE") = true ∧ out = l) := by
  unfold matchLine at h
  rcases ht : searchTapRaw l with _ | ⟨d1, d2⟩ <;> rw [ht] at h
  · simp only [] at h
    by_cases h1 : hasTypeOpen l = true
    · rw [if_pos h1] at h
      simp only [Option.some.injEq] at h
      exact Or.inr (Or.inl ⟨rfl, h1, h.symm⟩)
    · rw [if_neg h1] at h
      rw [Bool.not_eq_true] at h1
      by_cases h2 : containsCI l (strL "SCROLL") = true
      · rw [if_pos h2] at h
        simp only [Option.some.injEq] at h
        exact Or.inr (Or.inr (Or.inl ⟨rfl, h1, h2, h.symm⟩))
      · rw [if_neg h2] at h
        rw [Bool.not_eq_true] at h2
        by_cases h3 : containsCI l (strL "TASK_COMPLETE") = true
        · rw [if_pos h3] at h
          simp only [Option.some.injEq] at h
          exact Or.inr (Or.inr (Or.inr ⟨rfl, h1, h2, h3, h.symm⟩))
        · rw [if_neg h3] at h; cases h
  · simp only [Option.some.injEq] at h
    exact Or.inl ⟨d1, d2, rfl, h.symm⟩

theorem fallbackScan_cases {t out : List Char} {sw sh : ℚ}
    (h : fallbackScan sw sh t = some out) :
    (∃ d1 d2, searchTapRaw t = some (d1, d2)
        ∧ out = strL "TAP (" ++ intRepr (pyTrunc ((digitsVal d1 : ℚ) * sw)) ++ strL ","
            ++ intRepr (pyTrunc ((digitsVal d2 : ℚ) * sh)) ++ strL ") # extracted and scaled")
      ∨ (searchTapRaw t = none ∧ ∃ txt, searchTypeFull t = some txt
          ∧ out = strL "TYPE " ++ squote :: txt ++ squote :: strL " # extracted action")
      ∨ (searchTapRaw t = none ∧ searchTypeFull t = none
          ∧ containsCI t (strL "SCROLL") = true ∧ out = strL "SCROLL down # extracted action")
      ∨ (searchTapRaw t = none ∧ searchTypeFull t = none
          ∧ containsCI t (strL "SCROLL") = false
          ∧ containsCI t (strL "TASK_COMPLETE") = true
          ∧ out = strL "TASK_COMPLETE: extracted from response") := by
  unfold fallbackScan at h
  rcases ht : searchTapRaw t with _ | ⟨d1, d2⟩ <;> rw [ht] at h
  · simp only [] at h
    rcases hf : searchTypeFull t with _ | txt <;> rw [hf] at h
    · simp only [] at h
      by_cases h2 : containsCI t (strL "SCROLL") = true
      · rw [if_pos h2] at h
        simp only [Option.some.injEq] at h
        exact Or.inr (Or.inr (Or.inl ⟨rfl, rfl, h2, h.symm⟩))
      · rw [if_neg h2] at h
        rw [Bool.not_eq_true] at h2
        by_cases h3 : containsCI t (strL "TASK_COMPLETE") = true
        · rw [if_pos h3] at h
          simp only [Option.some.injEq] at h
          exact Or.inr (Or.inr (Or.inr ⟨rfl, rfl, h2, h3, h.symm⟩))
        · rw [if_neg h3] at h; cases h
    · simp only [Option.some.injEq] at h
      exact Or.inr (Or.inl ⟨rfl, txt, rfl, h.symm⟩)
  · simp only [Option.some.injEq] at h
    exact Or.inl ⟨d1, d2, rfl, h.symm⟩

theorem contains_iff_mem {l : List Char} {c : Char} : l.contains c = true ↔ c ∈ l :=
  List.elem_iff

theorem isPrefixOf_cons_ne {c d : Char} {as l : List Char} (h : ¬ c = d) :
    (c :: as).isPrefixOf (d :: l) = false := by
  show (c == d && as.isPrefixOf l) = false
  rw [beq_eq_false_iff_ne.mpr h]
  rfl

theorem not_mem_natRepr {c : Char} (h : c.isDigit = false) (n : ℕ) : c ∉ natRepr n := by
  intro hmem
  rw [natRepr_digits n c hmem] at h
  cases h

theorem pyStrip_eq_self_ends {l : List Char}
    (hh : ∀ c, l.head? = some c → pyIsSpace c = false)
    (hl : ∀ c, l.getLast? = some c → pyIsSpace c = false) : pyStrip l = l := by
  cases hn : l with
  | nil => rfl
  | cons c0 t =>
    have hc0 : pyIsSpace c0 = false := hh c0 (by rw [hn]; rfl)
    have hlast : pyIsSpace (l.getLast (by rw [hn]; simp)) = false := by
      apply hl
      exact (List.getLast?_eq_getLast _ _).symm ▸ rfl
    obtain hdec := List.dropLast_append_getLast (l := l) (by rw [hn]; simp)
    rw [← hn]
    unfold pyStrip
    rw [← hdec, stripR_eq_self_of_last hlast, hdec, hn, stripL_cons_of hc0]

theorem natRepr_no_nl (n : ℕ) : '\n' ∉ natRepr n := not_mem_natRepr (by decide) n

theorem natRepr_no_hash (n : ℕ) : '#' ∉ natRepr n := not_mem_natRepr (by decide) n

theorem tap_out_mem {a b : ℕ} {c x : List Char} {y : Char}
    (hy : y ∈ strL "TAP (" ++ (natRepr a ++ (strL "," ++ (natRepr b ++ (x ++ c))))) :
    y ∈ strL "TAP (" ∨ y ∈ natRepr a ∨ y ∈ strL "," ∨ y ∈ natRepr b ∨ y ∈ x ∨ y ∈ c := by
  simp only [List.mem_append] at hy
  tauto

theorem searchTap_tapline (a b : ℕ) (tail : List Char) :
    searchTapRaw (strL "TAP (" ++ (natRepr a ++ (strL "," ++ (natRepr b ++ (')' :: tail)))))
      = some (natRepr a, natRepr b) := by
  have hshape : (strL "TAP (" ++ (natRepr a ++ (strL "," ++ (natRepr b ++ (')' :: tail)))))
      = tapShape [' '] (natRepr a) [] (natRepr b) tail := by
    unfold tapShape
    simp [strL]
  rw [hshape]
  exact searchTapRaw_head
    (tryTapAt_mk (by intro x hx; simp at hx; subst hx; rfl) (natRepr_digits a)
      (natRepr_ne_nil a) (by intro x hx; simp at hx) (natRepr_digits b) (natRepr_ne_nil b))

theorem tapline_mem {a b : ℕ} {x c : List Char} {y : Char}
    (hy : y ∈ strL "TAP (" ++ (natRepr a ++ (strL "," ++ (natRepr b ++ (x ++ c))))) :
    y ∈ strL "TAP (" ∨ y ∈ natRepr a ∨ y ∈ strL "," ∨ y ∈ natRepr b ∨ y ∈ x ∨ y ∈ c := by
  simp only [List.mem_append] at hy
  tauto

theorem tapline_no_hash_head (a b : ℕ) :
    ∀ x ∈ strL "TAP (" ++ (natRepr a ++ (strL "," ++ (natRepr b ++ [')', ' ']))),
      (fun ch => !(ch = '#')) x = true := by
  intro x hx
  have hx2 : x ∈ strL "TAP (" ∨ x ∈ natRepr a ∨ x ∈ strL "," ∨ x ∈ natRepr b
      ∨ x ∈ [')', ' '] ∨ x ∈ ([] : List Char) := tapline_mem (by simpa using hx)
  rcases hx2 with h | h | h | h | h | h
  · fin_cases h <;> decide
  · have hxne : x ≠ '#' := fun hh => (hh ▸ natRepr_no_hash a) h
    simp [hxne]
  · fin_cases h <;> decide
  · have hxne : x ≠ '#' := fun hh => (hh ▸ natRepr_no_hash b) h
    simp [hxne]
  · fin_cases h <;> decide
  · simp at h

theorem afterFirstHash_tapline (a b : ℕ) (d : List Char) :
    afterFirstHash
        (strL "TAP (" ++ (natRepr a ++ (strL "," ++ (natRepr b ++ (')' :: ' ' :: '#' :: d)))))
      = d := by
  unfold afterFirstHash
  have hre : strL "TAP (" ++ (natRepr a ++ (strL "," ++ (natRepr b ++ (')' :: ' ' :: '#' :: d))))
      = (strL "TAP (" ++ (natRepr a ++ (strL "," ++ (natRepr b ++ [')', ' '])))) ++ '#' :: d := by
    simp
  rw [hre, dropWhile_app (tapline_no_hash_head a b) (by decide)]
  rfl

theorem matchLine_tap_core (sw sh : ℚ) (a b : ℕ) (d : List Char) :
    matchLine sw sh
        (strL "TAP (" ++ (natRepr a ++ (strL "," ++ (natRepr b ++ (')' :: ' ' :: '#' :: d)))))
      = some (strL "TAP (" ++ (intRepr (pyTrunc ((a : ℚ) * sw))
          ++ (strL "," ++ (intRepr (pyTrunc ((b : ℚ) * sh))
            ++ (strL ") # " ++ pyStrip d))))) := by
  unfold matchLine
  rw [searchTap_tapline a b (' ' :: '#' :: d)]
  simp only []
  unfold scaledTapLine
  have hcontains :
      (strL "TAP (" ++ (natRepr a ++ (strL "," ++ (natRepr b ++ (')' :: ' ' :: '#' :: d))))).contains '#'
        = true := by
    rw [contains_iff_mem]
    simp
  rw [if_pos hcontains, afterFirstHash_tapline]
  rw [digitsVal_natRepr, digitsVal_natRepr]
  congr 1
  simp

theorem extract_tap_out (a b : ℕ) (c : List Char) (hc : pyStrip c = c) (hnl : '\n' ∉ c) :
    extract_action_from_response
        (strL "TAP (" ++ (natRepr a ++ (strL "," ++ (natRepr b ++ (strL ") # " ++ c))))) 1 1
      = some (strL "TAP (" ++ (natRepr a ++ (strL "," ++ (natRepr b ++ (strL ") # " ++ c))))) := by
  have hmemnl : ∀ d : List Char, '\n' ∉ d →
      '\n' ∉ strL "TAP (" ++ (natRepr a ++ (strL "," ++ (natRepr b ++ (strL ") # " ++ d)))) := by
    intro d hd hmem
    rcases tapline_mem hmem with h | h | h | h | h | h
    · simp [strL] at h
    · exact natRepr_no_nl a h
    · simp [strL] at h
    · exact natRepr_no_nl b h
    · simp [strL] at h
    · exact hd h
  rcases hcc : c with _ | ⟨c0, ct⟩
  · -- empty comment: the outer strip removes the trailing space of the line
    subst hcc
    have hI0 : strL "TAP (" ++ (natRepr a ++ (strL "," ++ (natRepr b ++ (strL ") # " ++ []))))
        = (strL "TAP (" ++ (natRepr a ++ (strL "," ++ (natRepr b ++ strL ") #")))) ++ [' '] := by
      simp
      decide
    have hstripR : stripR (strL "TAP ("
          ++ (natRepr a ++ (strL "," ++ (natRepr b ++ (strL ") # " ++ [])))))
        = strL "TAP (" ++ (natRepr a ++ (strL "," ++ (natRepr b ++ strL ") #"))) := by
      rw [hI0, stripR_append, if_pos (by decide)]
      have hre : strL "TAP (" ++ (natRepr a ++ (strL "," ++ (natRepr b ++ strL ") #")))
          = (strL "TAP (" ++ (natRepr a ++ (strL "," ++ (natRepr b ++ strL ") ")))) ++ ['#'] := by
        simp
        decide
      rw [hre, stripR_eq_self_of_last (by decide), ← hre]
    have hstripL : stripL (strL "TAP (" ++ (natRepr a ++ (strL "," ++ (natRepr b ++ strL ") #"))))
        = strL "TAP (" ++ (natRepr a ++ (strL "," ++ (natRepr b ++ strL ") #"))) := by
      rw [show strL "TAP (" ++ (natRepr a ++ (strL "," ++ (natRepr b ++ strL ") #")))
          = 'T' :: (strL "AP (" ++ (natRepr a ++ (strL "," ++ (natRepr b ++ strL ") #"))))
          from rfl]
      exact stripL_cons_of (by decide)
    have hstrip : pyStrip (strL "TAP ("
          ++ (natRepr a ++ (strL "," ++ (natRepr b ++ (strL ") # " ++ [])))))
        = strL "TAP (" ++ (natRepr a ++ (strL "," ++ (natRepr b ++ strL ") #"))) := by
      unfold pyStrip
      rw [hstripR, hstripL]
    have hnlI : '\n' ∉ strL "TAP (" ++ (natRepr a ++ (strL "," ++ (natRepr b ++ strL ") #"))) := by
      intro hmem
      rcases tapline_mem (x := strL ") #") (c := []) (by simpa using hmem)
        with h | h | h | h | h | h
      · simp [strL] at h
      · exact natRepr_no_nl a h
      · simp [strL] at h
      · exact natRepr_no_nl b h
      · simp [strL] at h
      · simp at h
    unfold extract_action_from_response
    rw [hstrip, splitNl_nonNl hnlI, scanLines]
    have hline : lineResult 1 1
        (strL "TAP (" ++ (natRepr a ++ (strL "," ++ (natRepr b ++ strL ") #"))))
        = some (strL "TAP ("
            ++ (natRepr a ++ (strL "," ++ (natRepr b ++ (strL ") # " ++ []))))) := by
      unfold lineResult
      have hps : pyStrip (strL "TAP (" ++ (natRepr a ++ (strL "," ++ (natRepr b ++ strL ") #"))))
          = strL "TAP (" ++ (natRepr a ++ (strL "," ++ (natRepr b ++ strL ") #"))) := by
        unfold pyStrip
        rw [show stripR (strL "TAP (" ++ (natRepr a ++ (strL "," ++ (natRepr b ++ strL ") #"))))
            = strL "TAP (" ++ (natRepr a ++ (strL "," ++ (natRepr b ++ strL ") #"))) from by
          have hre : strL "TAP (" ++ (natRepr a ++ (strL "," ++ (natRepr b ++ strL ") #")))
              = (strL "TAP (" ++ (natRepr a ++ (strL "," ++ (natRepr b ++ strL ") "))))
                ++ ['#'] := by
            simp
            decide
          rw [hre, stripR_eq_self_of_last (by decide), ← hre]]
        exact hstripL
      rw [hps]
      rw [if_neg (by
        rw [show strL "TAP (" ++ (natRepr a ++ (strL "," ++ (natRepr b ++ strL ") #")))
            = 'T' :: (strL "AP (" ++ (natRepr a ++ (strL "," ++ (natRepr b ++ strL ") #"))))
            from rfl]
        simp [List.isPrefixOf])]
      rw [show strL "TAP (" ++ (natRepr a ++ (strL "," ++ (natRepr b ++ strL ") #")))
          = strL "TAP (" ++ (natRepr a ++ (strL "," ++ (natRepr b ++ (')' :: ' ' :: '#' :: []))))
          from rfl]
      rw [matchLine_tap_core 1 1 a b []]
      rw [mul_one, mul_one, pyTrunc_natCast, pyTrunc_natCast, intRepr_natCast, intRepr_natCast]
      rfl
    rw [hline]
  · -- non-empty comment: the line is strip-invariant
    subst hcc
    obtain ⟨hcL, hcR⟩ := strip_eq_self_parts hc
    have hlast : ∀ x, (c0 :: ct).getLast? = some x → pyIsSpace x = false := by
      intro x hx
      obtain ⟨t, d, htd⟩ : ∃ t d, c0 :: ct = t ++ [d] :=
        ⟨(c0 :: ct).dropLast, (c0 :: ct).getLast (by simp),
          (List.dropLast_append_getLast (by simp)).symm⟩
      rw [htd] at hx
      rw [List.getLast?_concat] at hx
      injection hx with hx
      subst hx
      exact stripR_last (l := c0 :: ct) (by rw [hcR, htd])
    have hstrip : pyStrip (strL "TAP ("
          ++ (natRepr a ++ (strL "," ++ (natRepr b ++ (strL ") # " ++ (c0 :: ct))))))
        = strL "TAP (" ++ (natRepr a ++ (strL "," ++ (natRepr b ++ (strL ") # " ++ (c0 :: ct))))) := by
      apply pyStrip_eq_self_ends
      · intro x hx
        rw [show strL "TAP ("
            ++ (natRepr a ++ (strL "," ++ (natRepr b ++ (strL ") # " ++ (c0 :: ct)))))
            = 'T' :: (strL "AP ("
              ++ (natRepr a ++ (strL "," ++ (natRepr b ++ (strL ") # " ++ (c0 :: ct))))))
            from rfl] at hx
        rw [List.head?_cons] at hx
        injection hx with hx
        subst hx
        decide
      · intro x hx
        rw [List.getLast?_append_of_ne_nil _ (by simp), List.getLast?_append_of_ne_nil _ (by simp),
          List.getLast?_append_of_ne_nil _ (by simp), List.getLast?_append_of_ne_nil _ (by simp)]
          at hx
        exact hlast x hx
    unfold extract_action_from_response
    rw [hstrip, splitNl_nonNl (hmemnl (c0 :: ct) hnl), scanLines]
    have hline : lineResult 1 1
        (strL "TAP (" ++ (natRepr a ++ (strL "," ++ (natRepr b ++ (strL ") # " ++ (c0 :: ct))))))
        = some (strL "TAP ("
            ++ (natRepr a ++ (strL "," ++ (natRepr b ++ (strL ") # " ++ (c0 :: ct)))))) := by
      unfold lineResult
      rw [hstrip]
      rw [if_neg (by
        rw [show strL "TAP ("
            ++ (natRepr a ++ (strL "," ++ (natRepr b ++ (strL ") # " ++ (c0 :: ct)))))
            = 'T' :: (strL "AP ("
              ++ (natRepr a ++ (strL "," ++ (natRepr b ++ (strL ") # " ++ (c0 :: ct))))))
            from rfl]
        simp [List.isPrefixOf])]
      rw [show strL "TAP (" ++ (natRepr a ++ (strL "," ++ (natRepr b ++ (strL ") # " ++ (c0 :: ct)))))
          = strL "TAP ("
            ++ (natRepr a ++ (strL "," ++ (natRepr b ++ (')' :: ' ' :: '#' :: (' ' :: (c0 :: ct))))))
          from rfl]
      rw [matchLine_tap_core 1 1 a b (' ' :: c0 :: ct)]
      rw [mul_one, mul_one, pyTrunc_natCast, pyTrunc_natCast, intRepr_natCast, intRepr_natCast]
      have hstripSp : pyStrip (' ' :: c0 :: ct) = c0 :: ct := by
        unfold pyStrip
        rw [show (' ' :: c0 :: ct) = [' '] ++ (c0 :: ct) from rfl]
        rw [stripR_app_of hcR (by simp)]
        show stripL ([' '] ++ (c0 :: ct)) = c0 :: ct
        rw [show ([' '] ++ (c0 :: ct)) = ' ' :: (c0 :: ct) from rfl]
        unfold stripL
        rw [List.dropWhile_cons, if_pos (by decide)]
        exact hcL
      rw [hstripSp]
      rfl
    rw [hline]

theorem extract_nonTap_line {l : List Char} {sw sh : ℚ} (hstrip : pyStrip l = l)
    (hnl : '\n' ∉ l) (hne : l.isEmpty = false)
    (hhash : (strL "#").isPrefixOf l = false) (hfence : (strL "```").isPrefixOf l = false)
    (htap : searchTapRaw l = none) (hml : matchLine sw sh l = some l) :
    extract_action_from_response l 1 1 = some l := by
  have hml1 : matchLine 1 1 l = some l := by
    unfold matchLine at hml ⊢
    rw [htap] at hml ⊢
    simp only [] at hml ⊢
    exact hml
  unfold extract_action_from_response
  rw [hstrip, splitNl_nonNl hnl, scanLines]
  have hlr : lineResult 1 1 l = some l := by
    unfold lineResult
    rw [hstrip]
    rw [if_neg (by simp [hne, hhash, hfence])]
    exact hml1
  rw [hlr]

theorem tryTapAt_none_of_second {c1 c2 : Char} {r : List Char} (h : ¬ c2 = 'A') :
    tryTapAt (c1 :: c2 :: r) = none := by
  unfold tryTapAt
  rw [if_neg]
  intro hp
  obtain ⟨tt, htt⟩ := isPrefixOf_iff_exists.mp hp
  rw [show strL "TAP" = 'T' :: 'A' :: 'P' :: [] from rfl] at htt
  simp only [List.cons_append, List.nil_append, List.cons.injEq] at htt
  exact h htt.2.1

theorem searchTapRaw_type_out_none {txt : List Char} (hnone : searchTapRaw txt = none) :
    searchTapRaw ((strL "TYPE " ++ [squote])
        ++ (txt ++ (squote :: strL " # extracted action"))) = none := by
  rcases hs : searchTapRaw ((strL "TYPE " ++ [squote])
      ++ (txt ++ (squote :: strL " # extracted action"))) with _ | p
  · rfl
  · exfalso
    rcases searchTapRaw_append_cases hs with ⟨t, htn, ⟨s, hsplit⟩, htry⟩ | h2
    · have hmem : t ∈ (strL "TYPE " ++ [squote]).tails := by
        rw [List.mem_tails]
        exact ⟨s, hsplit.symm⟩
      rw [show strL "TYPE " ++ [squote]
          = 'T' :: 'Y' :: 'P' :: 'E' :: ' ' :: squote :: [] from rfl] at hmem
      simp only [List.tails_cons, List.tails, List.mem_cons, List.mem_singleton] at hmem
      rcases hmem with rfl | rfl | rfl | rfl | rfl | rfl | (rfl | h0)
      · rw [List.cons_append, List.cons_append,
          tryTapAt_none_of_second (by decide)] at htry; cases htry
      · rw [List.cons_append, tryTapAt_none_of_head (by decide)] at htry; cases htry
      · rw [List.cons_append, tryTapAt_none_of_head (by decide)] at htry; cases htry
      · rw [List.cons_append, tryTapAt_none_of_head (by decide)] at htry; cases htry
      · rw [List.cons_append, tryTapAt_none_of_head (by decide)] at htry; cases htry
      · rw [List.cons_append, tryTapAt_none_of_head (by decide)] at htry; cases htry
      · exact htn rfl
      · simp at h0
    · rcases searchTapRaw_append_cases h2 with ⟨t, htn, ⟨s, hsplit⟩, htry⟩ | h3
      · have h4 : tryTapAt t = some p := tryTapAt_of_append_no_close htry (by decide)
        obtain ⟨q, hq⟩ := searchTapRaw_some_of_suffix (u := s) h4
        rw [← hsplit] at hq
        rw [hq] at hnone
        cases hnone
      · rw [show searchTapRaw (squote :: strL " # extracted action") = none from by decide] at h3
        cases h3

theorem isPrefixOf_false_head {c d : Char} {as l : List Char} (hd : l.head? = some d)
    (h : ¬ c = d) : (c :: as).isPrefixOf l = false := by
  cases l with
  | nil => cases hd
  | cons e t =>
    rw [List.head?_cons] at hd
    injection hd with hd
    subst hd
    exact isPrefixOf_cons_ne h

theorem extract_type_out {txt : List Char} (hnone : searchTapRaw txt = none)
    (hnl : '\n' ∉ (strL "TYPE " ++ [squote]) ++ (txt ++ (squote :: strL " # extracted action"))) :
    extract_action_from_response
        ((strL "TYPE " ++ [squote]) ++ (txt ++ (squote :: strL " # extracted action"))) 1 1
      = some ((strL "TYPE " ++ [squote]) ++ (txt ++ (squote :: strL " # extracted action"))) := by
  have hhead : ((strL "TYPE " ++ [squote])
      ++ (txt ++ (squote :: strL " # extracted action"))).head? = some 'T' := rfl
  have hlast : ((strL "TYPE " ++ [squote])
      ++ (txt ++ (squote :: strL " # extracted action"))).getLast? = some 'n' := by
    rw [List.getLast?_append_of_ne_nil _ (by simp)]
    rw [show (txt ++ (squote :: strL " # extracted action"))
        = txt ++ ([squote] ++ strL " # extracted action") from rfl]
    rw [List.getLast?_append_of_ne_nil _ (by simp [strL])]
    rw [List.getLast?_append_of_ne_nil _ (by simp [strL])]
    decide
  have hstrip : pyStrip ((strL "TYPE " ++ [squote])
      ++ (txt ++ (squote :: strL " # extracted action")))
      = (strL "TYPE " ++ [squote]) ++ (txt ++ (squote :: strL " # extracted action")) := by
    apply pyStrip_eq_self_ends
    · intro x hx
      rw [hhead] at hx
      injection hx with hx
      subst hx
      decide
    · intro x hx
      rw [hlast] at hx
      injection hx with hx
      subst hx
      decide
  have htap : searchTapRaw ((strL "TYPE " ++ [squote])
      ++ (txt ++ (squote :: strL " # extracted action"))) = none :=
    searchTapRaw_type_out_none hnone
  have hopen : hasTypeOpen ((strL "TYPE " ++ [squote])
      ++ (txt ++ (squote :: strL " # extracted action"))) = true := by
    apply hasTypeOpen_head
    rw [show (strL "TYPE " ++ [squote]) ++ (txt ++ (squote :: strL " # extracted action"))
        = strL "TYPE" ++ ([' '] ++ squote :: (txt ++ (squote :: strL " # extracted action")))
        from rfl]
    exact tryTypeOpenAt_mk (by intro x hx; simp at hx; subst hx; rfl) (by decide)
  have hml : matchLine 1 1 ((strL "TYPE " ++ [squote])
      ++ (txt ++ (squote :: strL " # extracted action")))
      = some ((strL "TYPE " ++ [squote]) ++ (txt ++ (squote :: strL " # extracted action"))) := by
    unfold matchLine
    rw [htap]
    simp only []
    rw [if_pos hopen]
  exact extract_nonTap_line hstrip hnl rfl
    (isPrefixOf_false_head hhead (by decide)) (isPrefixOf_false_head hhead (by decide)) htap hml

/-- Claim C9 (amended): for every model reply on which the parser succeeds
with nonnegative scale factors, if the parser's output contains no newline
character, then re-parsing the output with scale factors (1.0, 1.0) returns
the same action string. (As originally stated the claim is false: the
last-resort `TYPE` recovery over the unsplit text can capture a quoted text
spanning a newline, and re-parsing such an output stops at its first line —
see the counterexample.) -/
theorem c9_reparse_idempotent (s out : List Char) (sw sh : ℚ)
    (hsw : 0 ≤ sw) (hsh : 0 ≤ sh)
    (h : extract_action_from_response s sw sh = some out) (hnl : '\n' ∉ out) :
    extract_action_from_response out 1 1 = some out := by
  rcases extract_cases h with hscan | ⟨hscanNone, hfb⟩
  · obtain ⟨line, hmem, hlr⟩ := scanLines_sound hscan
    obtain ⟨hne, hhash, hfence, hml⟩ := lineResult_sound hlr
    have hlnl : '\n' ∉ pyStrip line := by
      intro hx
      exact (mem_splitNl hmem '\n' (mem_pyStrip hx)).2 rfl
    have hlstrip : pyStrip (pyStrip line) = pyStrip line := pyStrip_idem line
    rcases matchLine_cases hml with ⟨d1, d2, hsr, hout⟩ | ⟨htap, hopen, hout⟩
      | ⟨htap, hopen, hscr, hout⟩ | ⟨htap, hopen, hscr, hcmp, hout⟩
    · -- scanned TAP line
      have hsx : (0 : ℤ) ≤ pyTrunc ((digitsVal d1 : ℚ) * sw) :=
        pyTrunc_nonneg (mul_nonneg (Nat.cast_nonneg _) hsw)
      have hsy : (0 : ℤ) ≤ pyTrunc ((digitsVal d2 : ℚ) * sh) :=
        pyTrunc_nonneg (mul_nonneg (Nat.cast_nonneg _) hsh)
      have hcs : pyStrip (if (pyStrip line).contains '#'
          then pyStrip (afterFirstHash (pyStrip line)) else strL "scaled coordinates")
          = (if (pyStrip line).contains '#'
            then pyStrip (afterFirstHash (pyStrip line)) else strL "scaled coordinates") := by
        by_cases hh : (pyStrip line).contains '#' = true
        · rw [if_pos hh]
          exact pyStrip_idem _
        · rw [if_neg hh]
          decide
      have hcnl : '\n' ∉ (if (pyStrip line).contains '#'
          then pyStrip (afterFirstHash (pyStrip line)) else strL "scaled coordinates") := by
        by_cases hh : (pyStrip line).contains '#' = true
        · rw [if_pos hh]
          intro hx
          exact hlnl (afterFirstHash_subset (mem_pyStrip hx))
        · rw [if_neg hh]
          decide
      have hform : scaledTapLine sw sh d1 d2 (pyStrip line)
          = strL "TAP (" ++ (natRepr (pyTrunc ((digitsVal d1 : ℚ) * sw)).toNat
            ++ (strL "," ++ (natRepr (pyTrunc ((digitsVal d2 : ℚ) * sh)).toNat
              ++ (strL ") # " ++ (if (pyStrip line).contains '#'
                then pyStrip (afterFirstHash (pyStrip line))
                else strL "scaled coordinates"))))) := by
        unfold scaledTapLine
        rw [intRepr_nonneg hsx, intRepr_nonneg hsy]
        simp [List.append_assoc]
      rw [hout, hform]
      exact extract_tap_out _ _ _ hcs hcnl
    · rw [hout]
      rw [hout] at hnl
      refine @extract_nonTap_line _ sw sh hlstrip hnl hne hhash hfence htap ?_
      rw [← hout] at hml ⊢
      exact hml
    · rw [hout]
      rw [hout] at hnl
      refine @extract_nonTap_line _ sw sh hlstrip hnl hne hhash hfence htap ?_
      rw [← hout] at hml ⊢
      exact hml
    · rw [hout]
      rw [hout] at hnl
      refine @extract_nonTap_line _ sw sh hlstrip hnl hne hhash hfence htap ?_
      rw [← hout] at hml ⊢
      exact hml
  · rcases fallbackScan_cases hfb with ⟨d1, d2, hsr, hout⟩ | ⟨htap, txt, hfull, hout⟩
      | ⟨htap, hty, hscr, hout⟩ | ⟨htap, hty, hscr, hcmp, hout⟩
    · -- full-text TAP recovery
      have hsx : (0 : ℤ) ≤ pyTrunc ((digitsVal d1 : ℚ) * sw) :=
        pyTrunc_nonneg (mul_nonneg (Nat.cast_nonneg _) hsw)
      have hsy : (0 : ℤ) ≤ pyTrunc ((digitsVal d2 : ℚ) * sh) :=
        pyTrunc_nonneg (mul_nonneg (Nat.cast_nonneg _) hsh)
      have hform : strL "TAP (" ++ intRepr (pyTrunc ((digitsVal d1 : ℚ) * sw)) ++ strL ","
          ++ intRepr (pyTrunc ((digitsVal d2 : ℚ) * sh)) ++ strL ") # extracted and scaled"
          = strL "TAP (" ++ (natRepr (pyTrunc ((digitsVal d1 : ℚ) * sw)).toNat
            ++ (strL "," ++ (natRepr (pyTrunc ((digitsVal d2 : ℚ) * sh)).toNat
              ++ (strL ") # " ++ strL "extracted and scaled")))) := by
        rw [intRepr_nonneg hsx, intRepr_nonneg hsy]
        rw [show strL ") # extracted and scaled"
            = strL ") # " ++ strL "extracted and scaled" from rfl]
        simp [List.append_assoc]
      rw [hout, hform]
      exact extract_tap_out _ _ _ (by decide) (by decide)
    · -- full-text TYPE recovery
      have htxtnone : searchTapRaw txt = none := by
        rcases hq : searchTapRaw txt with _ | p
        · rfl
        · exfalso
          obtain ⟨u, w, q1, q2, rest, hl, -, -, -, -, -⟩ := searchTypeFull_sound hfull
          have hfour : pyStrip s = (u ++ (strL "TYPE" ++ w ++ [q1])) ++ txt ++ (q2 :: rest) := by
            rw [hl]
            unfold typeShape
            simp
          obtain ⟨r, hr⟩ :=
            searchTapRaw_infix (u := u ++ (strL "TYPE" ++ w ++ [q1])) (v := q2 :: rest) hq
          rw [hfour] at htap
          rw [htap] at hr
          cases hr
      have hshape : strL "TYPE " ++ squote :: txt ++ squote :: strL " # extracted action"
          = (strL "TYPE " ++ [squote]) ++ (txt ++ (squote :: strL " # extracted action")) := rfl
      rw [hout, hshape]
      rw [hout, hshape] at hnl
      exact extract_type_out htxtnone hnl
    · rw [hout]
      decide
    · rw [hout]
      decide

/-- Claim C9 (counterexample): parser idempotence fails as originally
stated. For the reply "```TYPE 'ab⏎cd'" the line scan skips the code-fence
line, the last-resort recovery over the unsplit text captures the quoted
text spanning the newline, and re-parsing that output returns only its
first line, a different action string. -/
theorem c9_idempotence_counterexample :
    extract_action_from_response (strL "```TYPE 'ab\ncd'") 1 1
        = some (strL "TYPE 'ab\ncd' # extracted action")
      ∧ extract_action_from_response (strL "TYPE 'ab\ncd' # extracted action") 1 1
        = some (strL "TYPE 'ab")
      ∧ strL "TYPE 'ab" ≠ strL "TYPE 'ab\ncd' # extracted action" :=
  ⟨by decide, by decide, by decide⟩

/-- Witness for the amended claim C9 at a concrete input. -/
theorem c9_reparse_idempotent_witness :
    ((0 : ℚ) ≤ 1
        ∧ extract_action_from_response (strL "SCROLL down") 1 1 = some (strL "SCROLL down")
        ∧ '\n' ∉ strL "SCROLL down")
      ∧ extract_action_from_response (strL "SCROLL down") 1 1 = some (strL "SCROLL down") :=
  ⟨⟨by norm_num, by decide, by decide⟩,
    c9_reparse_idempotent (strL "SCROLL down") (strL "SCROLL down") 1 1
      (by norm_num) (by norm_num) (by decide) (by decide)⟩

theorem tapPlain_head (x y : ℕ) :
    (strL "TAP (" ++ (natRepr x ++ (strL "," ++ (natRepr y ++ strL ")")))).head? = some 'T' := rfl

theorem tapPlain_strip (x y : ℕ) :
    pyStrip (strL "TAP (" ++ (natRepr x ++ (strL "," ++ (natRepr y ++ strL ")"))))
      = strL "TAP (" ++ (natRepr x ++ (strL "," ++ (natRepr y ++ strL ")"))) := by
  apply pyStrip_eq_self_ends
  · intro c hc
    rw [tapPlain_head] at hc
    injection hc with hc
    subst hc
    decide
  · intro c hc
    rw [List.getLast?_append_of_ne_nil _ (by simp [natRepr_ne_nil])] at hc
    rw [List.getLast?_append_of_ne_nil _ (by simp [natRepr_ne_nil, strL])] at hc
    rw [List.getLast?_append_of_ne_nil _ (by simp [natRepr_ne_nil, strL])] at hc
    rw [List.getLast?_append_of_ne_nil _ (by simp [strL])] at hc
    rw [show (strL ")").getLast? = some ')' from rfl] at hc
    injection hc with hc
    subst hc
    decide

theorem tapPlain_mem {x y : ℕ} {c : Char}
    (hc : c ∈ strL "TAP (" ++ (natRepr x ++ (strL "," ++ (natRepr y ++ strL ")")))) :
    c ∈ strL "TAP (" ∨ c ∈ natRepr x ∨ c ∈ strL "," ∨ c ∈ natRepr y ∨ c ∈ strL ")" := by
  simp only [List.mem_append] at hc
  tauto

theorem tapPlain_no_nl (x y : ℕ) :
    '\n' ∉ strL "TAP (" ++ (natRepr x ++ (strL "," ++ (natRepr y ++ strL ")"))) := by
  intro hmem
  rcases tapPlain_mem hmem with h | h | h | h | h
  · simp [strL] at h
  · exact natRepr_no_nl x h
  · simp [strL] at h
  · exact natRepr_no_nl y h
  · simp [strL] at h

theorem tapPlain_no_hash (x y : ℕ) :
    (strL "TAP (" ++ (natRepr x ++ (strL "," ++ (natRepr y ++ strL ")")))).contains '#'
      = false := by
  cases hq : (strL "TAP (" ++ (natRepr x ++ (strL "," ++ (natRepr y ++ strL ")")))).contains '#'
  · rfl
  · exfalso
    rcases tapPlain_mem (contains_iff_mem.mp hq) with h | h | h | h | h
    · simp [strL] at h
    · exact natRepr_no_hash x h
    · simp [strL] at h
    · exact natRepr_no_hash y h
    · simp [strL] at h

theorem lineResult_tap_plain (sw sh : ℚ) (x y : ℕ) :
    lineResult sw sh (strL "TAP (" ++ (natRepr x ++ (strL "," ++ (natRepr y ++ strL ")"))))
      = some (strL "TAP (" ++ intRepr (pyTrunc ((x : ℚ) * sw)) ++ strL ","
          ++ intRepr (pyTrunc ((y : ℚ) * sh)) ++ strL ") # " ++ strL "scaled coordinates") := by
  unfold lineResult
  rw [tapPlain_strip]
  rw [if_neg (by
    simp only [Bool.or_eq_true, not_or]
    refine ⟨⟨?_, ?_⟩, ?_⟩
    · rw [show (strL "TAP (" ++ (natRepr x ++ (strL "," ++ (natRepr y ++ strL ")")))).isEmpty
        = false from rfl]
      simp
    · rw [show (strL "#") = ('#' :: ([] : List Char)) from rfl,
        isPrefixOf_false_head (tapPlain_head x y) (by decide)]
      simp
    · rw [show (strL "```") = ('`' :: ('`' :: ('`' :: ([] : List Char)))) from rfl,
        isPrefixOf_false_head (tapPlain_head x y) (by decide)]
      simp)]
  unfold matchLine
  rw [show strL "TAP (" ++ (natRepr x ++ (strL "," ++ (natRepr y ++ strL ")")))
      = strL "TAP (" ++ (natRepr x ++ (strL "," ++ (natRepr y ++ (')' :: [])))) from rfl]
  rw [searchTap_tapline x y []]
  simp only []
  unfold scaledTapLine
  rw [show strL "TAP (" ++ (natRepr x ++ (strL "," ++ (natRepr y ++ (')' :: []))))
      = strL "TAP (" ++ (natRepr x ++ (strL "," ++ (natRepr y ++ strL ")")))  from rfl]
  rw [tapPlain_no_hash, digitsVal_natRepr, digitsVal_natRepr]
  simp

/-- Claim C1: for every well-formed `TAP (x,y)` reply and nonnegative scale
factor pair (sw, sh) — scale factors are ratios of image dimensions, hence
nonnegative — the parser returns a TAP action whose coordinates equal
`⌊x*sw⌋` and `⌊y*sh⌋`; and the correction is applied only at parse time: the
action coordinator taps exactly the literal coordinates carried by the
parsed action string, with no further scaling. -/
theorem c1_tap_scaling :
    (∀ (x y : ℕ) (sw sh : ℚ), 0 ≤ sw → 0 ≤ sh →
      extract_action_from_response
          (strL "TAP (" ++ (natRepr x ++ (strL "," ++ (natRepr y ++ strL ")")))) sw sh
        = some (strL "TAP (" ++ intRepr ⌊(x : ℚ) * sw⌋ ++ strL ","
            ++ intRepr ⌊(y : ℚ) * sh⌋ ++ strL ") # " ++ strL "scaled coordinates"))
    ∧ (∀ (act : List Char) (hist : List (List Char)) (d1 d2 : List Char),
        searchTapRaw (selectActionLine (pyStrip act)) = some (d1, d2) →
        is_action_repeating hist (selectActionLine (pyStrip act)) = false →
        (execute_parsed_action act hist).effects
          = [DeviceEffect.tap (digitsVal d1) (digitsVal d2)]) := by
  constructor
  · intro x y sw sh hsw hsh
    unfold extract_action_from_response
    rw [tapPlain_strip, splitNl_nonNl (tapPlain_no_nl x y), scanLines, lineResult_tap_plain]
    rw [pyTrunc_eq_floor (mul_nonneg (Nat.cast_nonneg x) hsw),
      pyTrunc_eq_floor (mul_nonneg (Nat.cast_nonneg y) hsh)]
  · intro act hist d1 d2 hsr hrep
    unfold execute_parsed_action
    rw [hsr]
    simp only []
    rw [if_neg (by simp [hrep])]

/-- Witness for claim C1: the reply `TAP (100,200)` with scale factors
(2.0, 1.5) parses to `TAP (200,300)`. -/
theorem c1_tap_scaling_witness :
    ((0 : ℚ) ≤ 2 ∧ (0 : ℚ) ≤ 3 / 2)
      ∧ extract_action_from_response (strL "TAP (100,200)") 2 (3 / 2)
        = some (strL "TAP (200,300) # scaled coordinates") := by
  refine ⟨⟨by norm_num, by norm_num⟩, ?_⟩
  have h := c1_tap_scaling.1 100 200 2 (3 / 2) (by norm_num) (by norm_num)
  have e1 : (⌊((100 : ℕ) : ℚ) * 2⌋ : ℤ) = 200 := by
    rw [show ((100 : ℕ) : ℚ) * 2 = (200 : ℚ) by norm_num]
    simp
  have e2 : (⌊((200 : ℕ) : ℚ) * (3 / 2)⌋ : ℤ) = 300 := by
    rw [show ((200 : ℕ) : ℚ) * (3 / 2) = (300 : ℚ) by norm_num]
    simp
  rw [e1, e2] at h
  rw [show strL "TAP (100,200)"
      = strL "TAP (" ++ (natRepr 100 ++ (strL "," ++ (natRepr 200 ++ strL ")"))) from by decide]
  rw [show strL "TAP (200,300) # scaled coordinates"
      = strL "TAP (" ++ intRepr (200 : ℤ) ++ strL "," ++ intRepr (300 : ℤ) ++ strL ") # "
        ++ strL "scaled coordinates" from by decide]
  exact h

theorem toUpper_digit {c : Char} (h : c.isDigit = true) : c.toUpper = c := by
  have hb : 48 ≤ c.toNat ∧ c.toNat ≤ 57 := isDigit_toNat_bounds h
  unfold Char.toUpper
  simp only []
  rw [if_neg]
  omega

theorem extract_tap_comment (sw sh : ℚ) (x y : ℕ) {c0 : Char} {ct : List Char}
    (hc : pyStrip (c0 :: ct) = c0 :: ct) (hnl : '\n' ∉ (c0 :: ct)) :
    extract_action_from_response
        (strL "TAP (" ++ (natRepr x ++ (strL "," ++ (natRepr y ++ (strL ") # " ++ (c0 :: ct))))))
        sw sh
      = some (strL "TAP (" ++ (intRepr (pyTrunc ((x : ℚ) * sw))
          ++ (strL "," ++ (intRepr (pyTrunc ((y : ℚ) * sh))
            ++ (strL ") # " ++ (c0 :: ct)))))) := by
  obtain ⟨hcL, hcR⟩ := strip_eq_self_parts hc
  have hmemnl : '\n' ∉ strL "TAP ("
      ++ (natRepr x ++ (strL "," ++ (natRepr y ++ (strL ") # " ++ (c0 :: ct))))) := by
    intro hmem
    rcases tapline_mem hmem with h | h | h | h | h | h
    · simp [strL] at h
    · exact natRepr_no_nl x h
    · simp [strL] at h
    · exact natRepr_no_nl y h
    · simp [strL] at h
    · exact hnl h
  have hlast : ∀ z, (c0 :: ct).getLast? = some z → pyIsSpace z = false := by
    intro z hz
    obtain ⟨t, d, htd⟩ : ∃ t d, c0 :: ct = t ++ [d] :=
      ⟨(c0 :: ct).dropLast, (c0 :: ct).getLast (by simp),
        (List.dropLast_append_getLast (by simp)).symm⟩
    rw [htd, List.getLast?_concat] at hz
    injection hz with hz
    subst hz
    exact stripR_last (l := c0 :: ct) (by rw [hcR, htd])
  have hstrip : pyStrip (strL "TAP ("
        ++ (natRepr x ++ (strL "," ++ (natRepr y ++ (strL ") # " ++ (c0 :: ct))))))
      = strL "TAP (" ++ (natRepr x ++ (strL "," ++ (natRepr y ++ (strL ") # " ++ (c0 :: ct))))) := by
    apply pyStrip_eq_self_ends
    · intro z hz
      rw [show (strL "TAP ("
          ++ (natRepr x ++ (strL "," ++ (natRepr y ++ (strL ") # " ++ (c0 :: ct)))))).head?
          = some 'T' from rfl] at hz
      injection hz with hz
      subst hz
      decide
    · intro z hz
      rw [List.getLast?_append_of_ne_nil _ (by simp [natRepr_ne_nil]),
        List.getLast?_append_of_ne_nil _ (by simp [natRepr_ne_nil, strL]),
        List.getLast?_append_of_ne_nil _ (by simp [natRepr_ne_nil, strL]),
        List.getLast?_append_of_ne_nil _ (by simp [strL]),
        List.getLast?_append_of_ne_nil _ (by simp)] at hz
      exact hlast z hz
  unfold extract_action_from_response
  rw [hstrip, splitNl_nonNl hmemnl, scanLines]
  have hline : lineResult sw sh
      (strL "TAP (" ++ (natRepr x ++ (strL "," ++ (natRepr y ++ (strL ") # " ++ (c0 :: ct))))))
      = some (strL "TAP (" ++ (intRepr (pyTrunc ((x : ℚ) * sw))
          ++ (strL "," ++ (intRepr (pyTrunc ((y : ℚ) * sh))
            ++ (strL ") # " ++ (c0 :: ct)))))) := by
    unfold lineResult
    rw [hstrip]
    rw [if_neg (by
      simp only [Bool.or_eq_true, not_or]
      refine ⟨⟨?_, ?_⟩, ?_⟩
      · rw [show (strL "TAP ("
          ++ (natRepr x ++ (strL "," ++ (natRepr y ++ (strL ") # " ++ (c0 :: ct)))))).isEmpty
          = false from rfl]
        simp
      · rw [show (strL "#") = ('#' :: ([] : List Char)) from rfl,
          isPrefixOf_false_head (rfl : (strL "TAP ("
            ++ (natRepr x ++ (strL "," ++ (natRepr y ++ (strL ") # " ++ (c0 :: ct)))))).head?
            = some 'T') (by decide)]
        simp
      · rw [show (strL "```") = ('`' :: ('`' :: ('`' :: ([] : List Char)))) from rfl,
          isPrefixOf_false_head (rfl : (strL "TAP ("
            ++ (natRepr x ++ (strL "," ++ (natRepr y ++ (strL ") # " ++ (c0 :: ct)))))).head?
            = some 'T') (by decide)]
        simp)]
    rw [show strL "TAP (" ++ (natRepr x ++ (strL "," ++ (natRepr y ++ (strL ") # " ++ (c0 :: ct)))))
        = strL "TAP ("
          ++ (natRepr x ++ (strL "," ++ (natRepr y ++ (')' :: ' ' :: '#' :: (' ' :: (c0 :: ct))))))
        from rfl]
    rw [matchLine_tap_core sw sh x y (' ' :: c0 :: ct)]
    have hstripSp : pyStrip (' ' :: c0 :: ct) = c0 :: ct := by
      unfold pyStrip
      rw [show (' ' :: c0 :: ct) = [' '] ++ (c0 :: ct) from rfl]
      rw [stripR_app_of hcR (by simp)]
      show stripL ([' '] ++ (c0 :: ct)) = c0 :: ct
      rw [show ([' '] ++ (c0 :: ct)) = ' ' :: (c0 :: ct) from rfl]
      unfold stripL
      rw [List.dropWhile_cons, if_pos (by decide)]
      exact hcL
    rw [hstripSp]
  rw [hline]

theorem extract_tap_first_line (sw sh : ℚ) (x y : ℕ) (rest : List Char) :
    extract_action_from_response
        ((strL "TAP (" ++ (natRepr x ++ (strL "," ++ (natRepr y ++ strL ")"))))
          ++ ('\n' :: rest)) sw sh
      = some (strL "TAP (" ++ intRepr (pyTrunc ((x : ℚ) * sw)) ++ strL ","
          ++ intRepr (pyTrunc ((y : ℚ) * sh)) ++ strL ") # " ++ strL "scaled coordinates") := by
  obtain ⟨hTL, hTR⟩ := strip_eq_self_parts (tapPlain_strip x y)
  have hTne : strL "TAP (" ++ (natRepr x ++ (strL "," ++ (natRepr y ++ strL ")"))) ≠ [] := by
    rw [show strL "TAP (" ++ (natRepr x ++ (strL "," ++ (natRepr y ++ strL ")")))
        = 'T' :: (strL "AP (" ++ (natRepr x ++ (strL "," ++ (natRepr y ++ strL ")"))))
        from rfl]
    simp
  unfold extract_action_from_response
  rcases hz : stripR ('\n' :: rest) with _ | ⟨z0, zt⟩
  · -- the whole tail is whitespace and is stripped away
    have hstrip : pyStrip ((strL "TAP (" ++ (natRepr x ++ (strL "," ++ (natRepr y ++ strL ")"))))
          ++ ('\n' :: rest))
        = strL "TAP (" ++ (natRepr x ++ (strL "," ++ (natRepr y ++ strL ")"))) := by
      unfold pyStrip
      rw [stripR_append, if_pos hz, hTR]
      exact hTL
    rw [hstrip, splitNl_nonNl (tapPlain_no_nl x y), scanLines, lineResult_tap_plain]
  · -- the stripped tail keeps its leading newline
    have hz2 : stripR ('\n' :: rest) = '\n' :: stripR rest := by
      by_cases hrr : stripR rest = []
      · exfalso
        rw [show ('\n' :: rest) = ['\n'] ++ rest from rfl, stripR_append, if_pos hrr,
          show stripR ['\n'] = [] from by decide] at hz
        cases hz
      · rw [show ('\n' :: rest) = ['\n'] ++ rest from rfl, stripR_append, if_neg hrr]
        rfl
    have hstrip : pyStrip ((strL "TAP (" ++ (natRepr x ++ (strL "," ++ (natRepr y ++ strL ")"))))
          ++ ('\n' :: rest))
        = (strL "TAP (" ++ (natRepr x ++ (strL "," ++ (natRepr y ++ strL ")"))))
          ++ ('\n' :: stripR rest) := by
      unfold pyStrip
      rw [stripR_append, if_neg (by rw [hz]; simp), hz2]
      exact stripL_app_of hTL hTne
    rw [hstrip, splitNl_app (tapPlain_no_nl x y), scanLines, lineResult_tap_plain]

theorem parenGroup_strip (x y : ℕ) :
    pyStrip (strL "(" ++ (natRepr x ++ (strL "," ++ (natRepr y ++ strL ")"))))
      = strL "(" ++ (natRepr x ++ (strL "," ++ (natRepr y ++ strL ")"))) := by
  apply pyStrip_eq_self_ends
  · intro z hz
    rw [show (strL "(" ++ (natRepr x ++ (strL "," ++ (natRepr y ++ strL ")")))).head?
        = some '(' from rfl] at hz
    injection hz with hz
    subst hz
    decide
  · intro z hz
    rw [List.getLast?_append_of_ne_nil _ (by simp [natRepr_ne_nil]),
      List.getLast?_append_of_ne_nil _ (by simp [natRepr_ne_nil, strL]),
      List.getLast?_append_of_ne_nil _ (by simp [natRepr_ne_nil, strL]),
      List.getLast?_append_of_ne_nil _ (by simp [strL]),
      show (strL ")").getLast? = some ')' from rfl] at hz
    injection hz with hz
    subst hz
    decide

theorem parenGroup_chars {x y : ℕ} {z : Char}
    (hz : z ∈ strL "(" ++ (natRepr x ++ (strL "," ++ (natRepr y ++ strL ")")))) :
    z.isDigit = true ∨ z ∈ strL "(,)" := by
  simp only [List.mem_append] at hz
  rcases hz with h | h | h | h | h
  · right; fin_cases h <;> decide
  · left; exact natRepr_digits x z h
  · right; fin_cases h <;> decide
  · left; exact natRepr_digits y z h
  · right; fin_cases h <;> decide

theorem parenGroup_no_T (x y : ℕ) :
    ∀ z ∈ strL "(" ++ (natRepr x ++ (strL "," ++ (natRepr y ++ strL ")"))), ¬ z = 'T' := by
  intro z hz
  rcases parenGroup_chars hz with h | h
  · exact isDigit_ne h (by decide)
  · fin_cases h <;> decide

theorem parenGroup_containsCI_false (x y : ℕ) {c0 : Char} {nrest : List Char}
    (hc0 : c0.isDigit = false) (hc1 : c0 ∉ strL "(,)") :
    containsCI (strL "(" ++ (natRepr x ++ (strL "," ++ (natRepr y ++ strL ")"))))
      (c0 :: nrest) = false := by
  cases hq : containsCI (strL "(" ++ (natRepr x ++ (strL "," ++ (natRepr y ++ strL ")"))))
    (c0 :: nrest)
  · rfl
  · exfalso
    have hmem := containsSub_head_mem hq
    unfold upperStr at hmem
    obtain ⟨d, hd, hdu⟩ := List.mem_map.mp hmem
    rcases parenGroup_chars hd with h | h
    · rw [toUpper_digit h] at hdu
      subst hdu
      rw [h] at hc0
      cases hc0
    · have : d.toUpper = d := by fin_cases h <;> decide
      rw [this] at hdu
      subst hdu
      exact hc1 h

theorem lineResult_TAP_word (sw sh : ℚ) : lineResult sw sh (strL "TAP") = none := by
  unfold lineResult
  rw [show pyStrip (strL "TAP") = strL "TAP" from by decide]
  rw [if_neg (by decide)]
  unfold matchLine
  rw [show searchTapRaw (strL "TAP") = none from by decide]
  simp only []
  rw [show hasTypeOpen (strL "TAP") = false from by decide,
    show containsCI (strL "TAP") (strL "SCROLL") = false from by decide,
    show containsCI (strL "TAP") (strL "TASK_COMPLETE") = false from by decide]
  simp

theorem lineResult_parenGroup (sw sh : ℚ) (x y : ℕ) :
    lineResult sw sh (strL "(" ++ (natRepr x ++ (strL "," ++ (natRepr y ++ strL ")")))) = none := by
  unfold lineResult
  rw [parenGroup_strip]
  rw [if_neg (by
    simp only [Bool.or_eq_true, not_or]
    refine ⟨⟨?_, ?_⟩, ?_⟩
    · rw [show (strL "(" ++ (natRepr x ++ (strL "," ++ (natRepr y ++ strL ")")))).isEmpty
        = false from rfl]
      simp
    · rw [show (strL "#") = ('#' :: ([] : List Char)) from rfl,
        isPrefixOf_false_head (rfl : (strL "("
          ++ (natRepr x ++ (strL "," ++ (natRepr y ++ strL ")")))).head? = some '(')
          (by decide)]
      simp
    · rw [show (strL "```") = ('`' :: ('`' :: ('`' :: ([] : List Char)))) from rfl,
        isPrefixOf_false_head (rfl : (strL "("
          ++ (natRepr x ++ (strL "," ++ (natRepr y ++ strL ")")))).head? = some '(')
          (by decide)]
      simp)]
  unfold matchLine
  rw [searchTapRaw_none_no_T (parenGroup_no_T x y)]
  simp only []
  rw [hasTypeOpen_false_no_T (parenGroup_no_T x y)]
  rw [show strL "SCROLL" = 'S' :: strL "CROLL" from rfl,
    parenGroup_containsCI_false x y (by decide) (by decide)]
  rw [show strL "TASK_COMPLETE" = 'T' :: strL "ASK_COMPLETE" from rfl,
    parenGroup_containsCI_false x y (by decide) (by decide)]
  simp

theorem extract_tap_multiline (sw sh : ℚ) (x y : ℕ) :
    extract_action_from_response
        (strL "TAP" ++ ('\n' :: (strL "(" ++ (natRepr x ++ (strL "," ++ (natRepr y ++ strL ")"))))))
        sw sh
      = some (strL "TAP (" ++ intRepr (pyTrunc ((x : ℚ) * sw)) ++ strL ","
          ++ intRepr (pyTrunc ((y : ℚ) * sh)) ++ strL ") # extracted and scaled") := by
  have hGnl : '\n' ∉ strL "(" ++ (natRepr x ++ (strL "," ++ (natRepr y ++ strL ")"))) := by
    intro hmem
    rcases parenGroup_chars hmem with h | h
    · exact absurd h (by decide)
    · exact absurd h (by decide)
  have hstrip : pyStrip (strL "TAP"
        ++ ('\n' :: (strL "(" ++ (natRepr x ++ (strL "," ++ (natRepr y ++ strL ")"))))))
      = strL "TAP" ++ ('\n' :: (strL "(" ++ (natRepr x ++ (strL "," ++ (natRepr y ++ strL ")"))))) := by
    apply pyStrip_eq_self_ends
    · intro z hz
      rw [show (strL "TAP"
          ++ ('\n' :: (strL "(" ++ (natRepr x ++ (strL "," ++ (natRepr y ++ strL ")")))))).head?
          = some 'T' from rfl] at hz
      injection hz with hz
      subst hz
      decide
    · intro z hz
      rw [List.getLast?_append_of_ne_nil _ (by simp),
        show ('\n' :: (strL "(" ++ (natRepr x ++ (strL "," ++ (natRepr y ++ strL ")")))))
          = ['\n'] ++ (strL "(" ++ (natRepr x ++ (strL "," ++ (natRepr y ++ strL ")"))))
          from rfl,
        List.getLast?_append_of_ne_nil _ (by simp [strL]),
        List.getLast?_append_of_ne_nil _ (by simp [natRepr_ne_nil]),
        List.getLast?_append_of_ne_nil _ (by simp [natRepr_ne_nil, strL]),
        List.getLast?_append_of_ne_nil _ (by simp [natRepr_ne_nil, strL]),
        List.getLast?_append_of_ne_nil _ (by simp [strL]),
        show (strL ")").getLast? = some ')' from rfl] at hz
      injection hz with hz
      subst hz
      decide
  unfold extract_action_from_response
  rw [hstrip, splitNl_app (by decide), splitNl_nonNl hGnl]
  rw [scanLines, lineResult_TAP_word, scanLines, lineResult_parenGroup, scanLines]
  simp only []
  unfold fallbackScan
  rw [show strL "TAP"
      ++ ('\n' :: (strL "(" ++ (natRepr x ++ (strL "," ++ (natRepr y ++ strL ")")))))
      = tapShape ['\n'] (natRepr x) [] (natRepr y) [] from rfl]
  rw [searchTapRaw_head (tryTapAt_mk (by intro z hzz; simp at hzz; subst hzz; rfl)
    (natRepr_digits x) (natRepr_ne_nil x) (by intro z hzz; simp at hzz)
    (natRepr_digits y) (natRepr_ne_nil y))]
  simp only []
  rw [digitsVal_natRepr, digitsVal_natRepr]

/-- Claim C5: the parser splits the reply into lines and scans them in
order. (1) A line whose stripped form is blank or starts with `#` or a code
fence is skipped, leaving the scan of the remaining lines unchanged. (2)
The scan returns on the first line matching an action pattern, ignoring all
later lines. (3) In particular a well-formed `TAP (x,y)` first line wins
over arbitrary later lines (such as a SCROLL line), with the default
comment synthesized when the line has none. (4) A trailing `# comment` on
the TAP line is preserved in the output. (5) When no line matches, the same
pattern scan runs over the unsplit full text: the reply `TAP⏎(x,y)`, none
of whose lines matches, still yields the scaled TAP action with the
fallback comment. -/
theorem c5_parser_priority :
    (∀ (sw sh : ℚ) (p : List Char) (L : List (List Char)),
      ((pyStrip p).isEmpty = true ∨ (strL "#").isPrefixOf (pyStrip p) = true
        ∨ (strL "```").isPrefixOf (pyStrip p) = true) →
      scanLines sw sh (p :: L) = scanLines sw sh L)
    ∧ (∀ (sw sh : ℚ) (p : List Char) (L : List (List Char)) (a : List Char),
        lineResult sw sh p = some a → scanLines sw sh (p :: L) = some a)
    ∧ (∀ (sw sh : ℚ) (x y : ℕ) (rest : List Char),
        extract_action_from_response
            ((strL "TAP (" ++ (natRepr x ++ (strL "," ++ (natRepr y ++ strL ")"))))
              ++ ('\n' :: rest)) sw sh
          = some (strL "TAP (" ++ intRepr (pyTrunc ((x : ℚ) * sw)) ++ strL ","
              ++ intRepr (pyTrunc ((y : ℚ) * sh)) ++ strL ") # "
              ++ strL "scaled coordinates"))
    ∧ (∀ (sw sh : ℚ) (x y : ℕ) (c0 : Char) (ct : List Char),
        pyStrip (c0 :: ct) = c0 :: ct → '\n' ∉ (c0 :: ct) →
        extract_action_from_response
            (strL "TAP (" ++ (natRepr x ++ (strL "," ++ (natRepr y
              ++ (strL ") # " ++ (c0 :: ct)))))) sw sh
          = some (strL "TAP (" ++ (intRepr (pyTrunc ((x : ℚ) * sw))
              ++ (strL "," ++ (intRepr (pyTrunc ((y : ℚ) * sh))
                ++ (strL ") # " ++ (c0 :: ct)))))))
    ∧ (∀ (sw sh : ℚ) (x y : ℕ),
        extract_action_from_response
            (strL "TAP" ++ ('\n' :: (strL "("
              ++ (natRepr x ++ (strL "," ++ (natRepr y ++ strL ")")))))) sw sh
          = some (strL "TAP (" ++ intRepr (pyTrunc ((x : ℚ) * sw)) ++ strL ","
              ++ intRepr (pyTrunc ((y : ℚ) * sh)) ++ strL ") # extracted and scaled")) := by
  refine ⟨?_, ?_, ?_, ?_, ?_⟩
  · intro sw sh p L h
    have hc : ((pyStrip p).isEmpty || (strL "#").isPrefixOf (pyStrip p)
        || (strL "```").isPrefixOf (pyStrip p)) = true := by
      rcases h with h | h | h <;> simp [h]
    have hres : lineResult sw sh p = none := by
      show (if ((pyStrip p).isEmpty || (strL "#").isPrefixOf (pyStrip p)
          || (strL "```").isPrefixOf (pyStrip p)) = true
        then none else matchLine sw sh (pyStrip p)) = none
      rw [if_pos hc]
    rw [scanLines, hres]
  · intro sw sh p L a h
    rw [scanLines, h]
  · intro sw sh x y rest
    exact extract_tap_first_line sw sh x y rest
  · intro sw sh x y c0 ct hc hnl
    exact extract_tap_comment sw sh x y hc hnl
  · intro sw sh x y
    exact extract_tap_multiline sw sh x y

/-- Witness for claim C5: a `#` comment line is skipped by the line scan,
and for the two-line reply `TAP (5,6)⏎SCROLL down` the earlier TAP line
wins over the SCROLL line. -/
theorem c5_parser_priority_witness :
    scanLines 1 1 [strL "# note", strL "SCROLL down"]
        = scanLines 1 1 [strL "SCROLL down"]
      ∧ extract_action_from_response (strL "TAP (5,6)\nSCROLL down") 1 1
        = some (strL "TAP (5,6) # scaled coordinates") := by
  constructor
  · exact c5_parser_priority.1 1 1 (strL "# note") [strL "SCROLL down"]
      (Or.inr (Or.inl (by decide)))
  · have h := c5_parser_priority.2.2.1 1 1 5 6 (strL "SCROLL down")
    rw [mul_one, mul_one, pyTrunc_natCast, pyTrunc_natCast,
      intRepr_natCast, intRepr_natCast] at h
    rw [show strL "TAP (5,6)\nSCROLL down"
        = (strL "TAP (" ++ (natRepr 5 ++ (strL "," ++ (natRepr 6 ++ strL ")"))))
          ++ ('\n' :: strL "SCROLL down") from by decide]
    rw [show strL "TAP (5,6) # scaled coordinates"
        = strL "TAP (" ++ natRepr 5 ++ strL "," ++ natRepr 6 ++ strL ") # "
          ++ strL "scaled coordinates" from by decide]
    exact h

/-- Claim C2: the coordinator's loop guard. (1) A tap candidate is flagged
as repeating exactly when its normalized identity `TAP(x,y)` occurs at
least 2 times (the threshold) among the last 4 entries of the executed
action history. (2) A flagged tap is substituted with a scroll-down action
and the history is left unchanged. (3) A non-flagged tap is admitted: its
identity is appended to the history (capped at the last 10). (4) A non-tap
action bypasses the check entirely: the history is unchanged and the
returned flag and transport calls do not depend on the history. -/
theorem c2_loop_guard :
    (∀ (hist : List (List Char)) (cleaned d1 d2 : List Char),
        searchTapRaw cleaned = some (d1, d2) →
        (is_action_repeating hist cleaned = true
          ↔ 2 ≤ (takeLast 4 hist).count (tapIdentity d1 d2)))
    ∧ (∀ (act : List Char) (hist : List (List Char)) (d1 d2 : List Char),
        searchTapRaw (selectActionLine (pyStrip act)) = some (d1, d2) →
        is_action_repeating hist (selectActionLine (pyStrip act)) = true →
        execute_parsed_action act hist
          = { completed := false, effects := [DeviceEffect.scroll ScrollDir.down]
              history := hist })
    ∧ (∀ (act : List Char) (hist : List (List Char)) (d1 d2 : List Char),
        searchTapRaw (selectActionLine (pyStrip act)) = some (d1, d2) →
        is_action_repeating hist (selectActionLine (pyStrip act)) = false →
        (execute_parsed_action act hist).history
          = takeLast 10 (hist ++ [tapIdentity d1 d2]))
    ∧ (∀ (act : List Char) (hist hist' : List (List Char)),
        searchTapRaw (selectActionLine (pyStrip act)) = none →
        (execute_parsed_action act hist).history = hist
          ∧ (execute_parsed_action act hist).completed
              = (execute_parsed_action act hist').completed
          ∧ (execute_parsed_action act hist).effects
              = (execute_parsed_action act hist').effects) := by
  refine ⟨?_, ?_, ?_, ?_⟩
  · intro hist cleaned d1 d2 h
    unfold is_action_repeating
    rw [h]
    simp [max_action_repetitions]
  · intro act hist d1 d2 h hrep
    unfold execute_parsed_action
    rw [h]
    simp only []
    rw [if_pos hrep]
  · intro act hist d1 d2 h hrep
    unfold execute_parsed_action
    rw [h]
    simp only []
    rw [if_neg (by simp [hrep])]
  · intro act hist hist' h
    unfold execute_parsed_action
    rw [h]
    simp only []
    rcases ht : searchTypeFull (selectActionLine (pyStrip act)) with _ | txt
    · simp only []
      by_cases hsc : containsCI (selectActionLine (pyStrip act)) (strL "SCROLL") = true
      · simp [hsc]
      · by_cases htc : containsCI (selectActionLine (pyStrip act))
            (strL "TASK_COMPLETE") = true
        · simp [hsc, htc]
        · simp [hsc, htc]
    · exact ⟨rfl, rfl, rfl⟩

/-- Witness for claim C2: with `TAP(50,50)` present twice in the history, a
third `TAP (50,50)` candidate is flagged, substituted with scroll-down and
not appended, while a distinct `TAP (60,60)` is admitted and appended. -/
theorem c2_loop_guard_witness :
    (is_action_repeating [strL "TAP(50,50)", strL "TAP(50,50)"]
          (selectActionLine (pyStrip (strL "TAP (50,50)"))) = true
      ∧ execute_parsed_action (strL "TAP (50,50)")
          [strL "TAP(50,50)", strL "TAP(50,50)"]
        = { completed := false, effects := [DeviceEffect.scroll ScrollDir.down]
            history := [strL "TAP(50,50)", strL "TAP(50,50)"] })
    ∧ (is_action_repeating [strL "TAP(50,50)", strL "TAP(50,50)"]
          (selectActionLine (pyStrip (strL "TAP (60,60)"))) = false
      ∧ (execute_parsed_action (strL "TAP (60,60)")
            [strL "TAP(50,50)", strL "TAP(50,50)"]).history
        = [strL "TAP(50,50)", strL "TAP(50,50)", strL "TAP(60,60)"]) := by
  refine ⟨⟨by decide, ?_⟩, by decide, ?_⟩
  · exact c2_loop_guard.2.1 (strL "TAP (50,50)")
      [strL "TAP(50,50)", strL "TAP(50,50)"] (strL "50") (strL "50")
      (by decide) (by decide)
  · exact (c2_loop_guard.2.2.1 (strL "TAP (60,60)")
      [strL "TAP(50,50)", strL "TAP(50,50)"] (strL "60") (strL "60")
      (by decide) (by decide)).trans (by decide)

/-- Claim C3: stall detection. (1) `detect_screen_loop` declares a stall
exactly when the current fingerprint appears among the last 3 recorded
entries. (2) In particular, with history `[h1, h2, h3]`, the fingerprint
`h1` arriving as the fourth observation triggers a stall. (3) On a stall
step the orchestrator skips every decision tier (no action is selected),
issues a scroll-down directly, leaves the completion flag unset, and does
not record the fingerprint: the successor state only advances the step
counter, keeping the fingerprint history unchanged. -/
theorem c3_stall_detection :
    (∀ (hist : List (List Char)) (h : List Char),
        detect_screen_loop hist h = true ↔ h ∈ takeLast 3 hist)
    ∧ (∀ (h1 h2 h3 : List Char), detect_screen_loop [h1, h2, h3] h1 = true)
    ∧ (∀ (st : AgentState) (inp : StepInput),
        inp.screenshotOk = true →
        detect_screen_loop st.hashHist inp.screenHash = true →
        agentStep st inp
          = { state := { st with step := st.step + 1 }
              effects := [DeviceEffect.scroll ScrollDir.down]
              action := none, completedFlag := false, breakMsg := none
              stalled := true }) := by
  refine ⟨?_, ?_, ?_⟩
  · intro hist h
    unfold detect_screen_loop
    simp
  · intro h1 h2 h3
    unfold detect_screen_loop takeLast
    simp
  · intro st inp hso hdet
    unfold agentStep
    rw [if_pos (by rw [hso]; simp only [Bool.true_and]; exact hdet)]

/-- Witness for claim C3: with fingerprint history `[a, b, c]`, seeing `a`
again stalls the step — the orchestrator scrolls, selects no action, and
leaves the fingerprint history unchanged. -/
theorem c3_stall_detection_witness :
    detect_screen_loop [strL "a", strL "b", strL "c"] (strL "a") = true
    ∧ agentStep
        { step := 0, searchInitiated := false, queryEntered := false
          hashHist := [strL "a", strL "b", strL "c"], actionHist := [] }
        { screenshotOk := true, screenHash := strL "a", visionReply := none
          wScale := 1, hScale := 1, uiOk := false, uiElements := [] }
      = { state := { step := 1, searchInitiated := false, queryEntered := false
                     hashHist := [strL "a", strL "b", strL "c"], actionHist := [] }
          effects := [DeviceEffect.scroll ScrollDir.down]
          action := none, completedFlag := false, breakMsg := none
          stalled := true } := by
  constructor
  · decide
  · exact c3_stall_detection.2.2
      { step := 0, searchInitiated := false, queryEntered := false
        hashHist := [strL "a", strL "b", strL "c"], actionHist := [] }
      { screenshotOk := true, screenHash := strL "a", visionReply := none
        wScale := 1, hScale := 1, uiOk := false, uiElements := [] }
      (by decide) (by decide)

theorem update_task_progress_cases (st : AgentState) (a : List Char) :
    update_task_progress st a = st
      ∨ (isTapSearchAction a = true
          ∧ update_task_progress st a = { st with searchInitiated := true })
      ∨ (isTapSearchAction a = false ∧ containsSub a (strL "TYPE") = true
          ∧ update_task_progress st a = { st with queryEntered := true }) := by
  unfold update_task_progress
  by_cases h1 : isTapSearchAction a = true
  · exact Or.inr (Or.inl ⟨h1, by rw [if_pos h1]⟩)
  · by_cases h2 : containsSub a (strL "TYPE") = true
    · refine Or.inr (Or.inr ⟨by simpa using h1, h2, ?_⟩)
      rw [if_neg h1, if_pos h2]
    · left
      rw [if_neg h1, if_neg h2]

theorem phaseIdx_le_two (p : TaskPhase) : phaseIdx p ≤ 2 := by
  cases p <;> simp [phaseIdx]

/-- Claim C4: the task-progress phase never regresses. (1)
`update_task_progress` either leaves the state unchanged, or sets
`search_initiated` on a tap whose text contains a search keyword, or sets
`query_entered` on a type action — and does nothing else. (2)
`search_initiated`, once set, is never cleared by any subsequent action.
(3) `query_entered`, once set, is never cleared. (4) The phase index is
monotone under every update. (5) From the QueryEntered phase, every
subsequent action (taps included) keeps the phase at QueryEntered. -/
theorem c4_progress_monotone :
    (∀ (st : AgentState) (a : List Char),
        update_task_progress st a = st
          ∨ (isTapSearchAction a = true
              ∧ update_task_progress st a = { st with searchInitiated := true })
          ∨ (isTapSearchAction a = false ∧ containsSub a (strL "TYPE") = true
              ∧ update_task_progress st a = { st with queryEntered := true }))
    ∧ (∀ (st : AgentState) (a : List Char), st.searchInitiated = true →
        (update_task_progress st a).searchInitiated = true)
    ∧ (∀ (st : AgentState) (a : List Char), st.queryEntered = true →
        (update_task_progress st a).queryEntered = true)
    ∧ (∀ (st : AgentState) (a : List Char),
        phaseIdx (phase st) ≤ phaseIdx (phase (update_task_progress st a)))
    ∧ (∀ (st : AgentState) (a : List Char), phase st = TaskPhase.queryEntered →
        phase (update_task_progress st a) = TaskPhase.queryEntered) := by
  refine ⟨update_task_progress_cases, ?_, ?_, ?_, ?_⟩
  · intro st a h
    rcases update_task_progress_cases st a with he | ⟨_, he⟩ | ⟨_, _, he⟩ <;>
      rw [he] <;> simp [h]
  · intro st a h
    rcases update_task_progress_cases st a with he | ⟨_, he⟩ | ⟨_, _, he⟩ <;>
      rw [he] <;> simp [h]
  · intro st a
    rcases update_task_progress_cases st a with he | ⟨_, he⟩ | ⟨_, _, he⟩
    · rw [he]
    · rw [he]
      by_cases hq : st.queryEntered = true
      · simp [phase, hq]
      · by_cases hs : st.searchInitiated = true <;>
          simp [phase, phaseIdx, hq, hs]
    · rw [he]
      have h2 : phase { st with queryEntered := true } = TaskPhase.queryEntered := by
        simp [phase]
      rw [h2]
      exact phaseIdx_le_two (phase st)
  · intro st a h
    have hq : st.queryEntered = true := by
      by_contra hq'
      unfold phase at h
      rw [if_neg hq'] at h
      by_cases hs : st.searchInitiated = true
      · rw [if_pos hs] at h
        exact absurd h (by decide)
      · rw [if_neg hs] at h
        exact absurd h (by decide)
    rcases update_task_progress_cases st a with he | ⟨_, he⟩ | ⟨_, _, he⟩ <;>
      rw [he] <;> simp [phase, hq]

/-- Witness for claim C4: a scroll action preserves an established
`search_initiated` flag, and a later tap keeps both `query_entered` and the
QueryEntered phase. -/
theorem c4_progress_monotone_witness :
    (update_task_progress
        { step := 0, searchInitiated := true, queryEntered := false
          hashHist := [], actionHist := [] } (strL "SCROLL down")).searchInitiated = true
    ∧ (update_task_progress
        { step := 0, searchInitiated := true, queryEntered := true
          hashHist := [], actionHist := [] } (strL "TAP (1,2) # item")).queryEntered = true
    ∧ phase (update_task_progress
        { step := 0, searchInitiated := true, queryEntered := true
          hashHist := [], actionHist := [] } (strL "TAP (1,2) # item"))
      = TaskPhase.queryEntered := by
  refine ⟨?_, ?_, ?_⟩
  · exact c4_progress_monotone.2.1
      { step := 0, searchInitiated := true, queryEntered := false
        hashHist := [], actionHist := [] } (strL "SCROLL down") (by decide)
  · exact c4_progress_monotone.2.2.1
      { step := 0, searchInitiated := true, queryEntered := true
        hashHist := [], actionHist := [] } (strL "TAP (1,2) # item") (by decide)
  · exact c4_progress_monotone.2.2.2.2
      { step := 0, searchInitiated := true, queryEntered := true
        hashHist := [], actionHist := [] } (strL "TAP (1,2) # item") (by decide)

theorem mem_insertDesc {b e : UIElement} {l : List UIElement} :
    b ∈ insertDesc e l ↔ b = e ∨ b ∈ l := by
  induction l with
  | nil => simp [insertDesc]
  | cons x xs ih =>
    unfold insertDesc
    by_cases h : search_relevance_score e < search_relevance_score x
    · rw [if_pos h]
      simp only [List.mem_cons, ih]
      tauto
    · rw [if_neg h]
      simp only [List.mem_cons]

theorem insertDesc_pairwise {e : UIElement} {l : List UIElement}
    (h : l.Pairwise (fun a b => search_relevance_score b ≤ search_relevance_score a)) :
    (insertDesc e l).Pairwise
      (fun a b => search_relevance_score b ≤ search_relevance_score a) := by
  induction l with
  | nil => simp [insertDesc]
  | cons x xs ih =>
    rw [List.pairwise_cons] at h
    unfold insertDesc
    by_cases hlt : search_relevance_score e < search_relevance_score x
    · rw [if_pos hlt, List.pairwise_cons]
      refine ⟨?_, ih h.2⟩
      intro b hb
      rcases mem_insertDesc.mp hb with rfl | hb
      · exact le_of_lt hlt
      · exact h.1 b hb
    · rw [if_neg hlt, List.pairwise_cons]
      refine ⟨?_, List.pairwise_cons.mpr h⟩
      intro b hb
      rcases List.mem_cons.mp hb with rfl | hb
      · exact le_of_not_lt hlt
      · exact le_trans (h.1 b hb) (le_of_not_lt hlt)

theorem sortByScoreDesc_pairwise (l : List UIElement) :
    (sortByScoreDesc l).Pairwise
      (fun a b => search_relevance_score b ≤ search_relevance_score a) := by
  induction l with
  | nil => simp [sortByScoreDesc]
  | cons e l ih =>
    rw [sortByScoreDesc]
    exact insertDesc_pairwise ih

theorem mem_sortByScoreDesc {b : UIElement} {l : List UIElement} :
    b ∈ sortByScoreDesc l ↔ b ∈ l := by
  induction l with
  | nil => simp [sortByScoreDesc]
  | cons e l ih =>
    rw [sortByScoreDesc]
    rw [mem_insertDesc, ih, List.mem_cons]

theorem filter_insertDesc (e : UIElement) (l : List UIElement) (k : ℕ) :
    (insertDesc e l).filter (fun x => search_relevance_score x == k)
      = if search_relevance_score e == k
        then e :: l.filter (fun x => search_relevance_score x == k)
        else l.filter (fun x => search_relevance_score x == k) := by
  induction l with
  | nil =>
    simp only [insertDesc, List.filter_cons, List.filter_nil]
  | cons x xs ih =>
    unfold insertDesc
    by_cases hlt : search_relevance_score e < search_relevance_score x
    · rw [if_pos hlt, List.filter_cons, ih, List.filter_cons]
      by_cases he : (search_relevance_score e == k) = true <;>
        by_cases hx : (search_relevance_score x == k) = true
      · exfalso
        simp only [beq_iff_eq] at he hx
        omega
      · simp [he, hx]
      · simp [he, hx]
      · simp [he, hx]
    · rw [if_neg hlt]
      simp [List.filter_cons]

theorem filter_sortByScoreDesc (l : List UIElement) (k : ℕ) :
    (sortByScoreDesc l).filter (fun x => search_relevance_score x == k)
      = l.filter (fun x => search_relevance_score x == k) := by
  induction l with
  | nil => rfl
  | cons e l ih =>
    rw [sortByScoreDesc, filter_insertDesc, ih, List.filter_cons]

theorem filter_take_prefix (p : UIElement → Bool) (l : List UIElement) (n : ℕ) :
    (l.take n).filter p <+: l.filter p := by
  refine ⟨(l.drop n).filter p, ?_⟩
  rw [← List.filter_append, List.take_append_drop]

/-- Claim C6: the search ranker `identify_search_elements`. (1) It returns
at most 5 elements. (2) The result is ordered by descending relevance
score. (3) Every returned element comes from the input and has a positive
score (zero-score elements are excluded). (4) The sort is stable: for
every score value, the returned elements of that score form a prefix of
the positive-score input elements of that score, in original snapshot
order. (5) On the claim's example, an element with text `Search products`
and class `EditText` scores 12 (at least 9: +5 search keyword, +4
edittext class, +2 icon keyword, +1 size), a plain wide element scores
only 1, and the ranker places the former first even when the input lists
it second. -/
theorem c6_search_ranker :
    (∀ l : List UIElement, (identify_search_elements l).length ≤ 5)
    ∧ (∀ l : List UIElement, (identify_search_elements l).Pairwise
        (fun a b => search_relevance_score b ≤ search_relevance_score a))
    ∧ (∀ (l : List UIElement) (e : UIElement), e ∈ identify_search_elements l →
        e ∈ l ∧ 0 < search_relevance_score e)
    ∧ (∀ (l : List UIElement) (k : ℕ),
        (identify_search_elements l).filter (fun e => search_relevance_score e == k)
          <+: (l.filter (fun e => decide (0 < search_relevance_score e))).filter
                (fun e => search_relevance_score e == k))
    ∧ (search_relevance_score
          { center_x := 100, center_y := 200, display_text := strL "Search products"
            content_description := [], resource_id := [], element_class := strL "EditText"
            is_clickable := true, is_scrollable := false
            element_width := 300, element_height := 40 } = 12
        ∧ search_relevance_score
          { center_x := 1, center_y := 2, display_text := strL "Banner"
            content_description := [], resource_id := [], element_class := strL "View"
            is_clickable := true, is_scrollable := false
            element_width := 300, element_height := 40 } = 1
        ∧ identify_search_elements
          [{ center_x := 1, center_y := 2, display_text := strL "Banner"
             content_description := [], resource_id := [], element_class := strL "View"
             is_clickable := true, is_scrollable := false
             element_width := 300, element_height := 40 },
           { center_x := 100, center_y := 200, display_text := strL "Search products"
             content_description := [], resource_id := [], element_class := strL "EditText"
             is_clickable := true, is_scrollable := false
             element_width := 300, element_height := 40 }]
          = [{ center_x := 100, center_y := 200, display_text := strL "Search products"
               content_description := [], resource_id := [], element_class := strL "EditText"
               is_clickable := true, is_scrollable := false
               element_width := 300, element_height := 40 },
             { center_x := 1, center_y := 2, display_text := strL "Banner"
               content_description := [], resource_id := [], element_class := strL "View"
               is_clickable := true, is_scrollable := false
               element_width := 300, element_height := 40 }]) := by
  refine ⟨?_, ?_, ?_, ?_, by decide, by decide, by decide⟩
  · intro l
    unfold identify_search_elements
    rw [List.length_take]
    exact min_le_left _ _
  · intro l
    unfold identify_search_elements
    exact List.Pairwise.sublist (List.take_sublist 5 _) (sortByScoreDesc_pairwise _)
  · intro l e he
    unfold identify_search_elements at he
    have h1 := (List.take_sublist 5 _).subset he
    have h2 := mem_sortByScoreDesc.mp h1
    have h3 := List.mem_filter.mp h2
    exact ⟨h3.1, of_decide_eq_true h3.2⟩
  · intro l k
    unfold identify_search_elements
    have h1 := filter_take_prefix (fun e => search_relevance_score e == k)
      (sortByScoreDesc (l.filter (fun e => decide (0 < search_relevance_score e)))) 5
    rw [filter_sortByScoreDesc] at h1
    exact h1

/-- Witness for claim C6: a single wide clickable element is returned by
the ranker, hence comes from the input and has a positive score. -/
theorem c6_search_ranker_witness :
    { center_x := 1, center_y := 2, display_text := strL "Banner"
      content_description := [], resource_id := [], element_class := strL "View"
      is_clickable := true, is_scrollable := false
      element_width := 300, element_height := 40 : UIElement }
        ∈ [{ center_x := 1, center_y := 2, display_text := strL "Banner"
             content_description := [], resource_id := [], element_class := strL "View"
             is_clickable := true, is_scrollable := false
             element_width := 300, element_height := 40 : UIElement }]
      ∧ 0 < search_relevance_score
          { center_x := 1, center_y := 2, display_text := strL "Banner"
            content_description := [], resource_id := [], element_class := strL "View"
            is_clickable := true, is_scrollable := false
            element_width := 300, element_height := 40 } :=
  c6_search_ranker.2.2.1
    [{ center_x := 1, center_y := 2, display_text := strL "Banner"
       content_description := [], resource_id := [], element_class := strL "View"
       is_clickable := true, is_scrollable := false
       element_width := 300, element_height := 40 }]
    { center_x := 1, center_y := 2, display_text := strL "Banner"
      content_description := [], resource_id := [], element_class := strL "View"
      is_clickable := true, is_scrollable := false
      element_width := 300, element_height := 40 }
    (by decide)

/-- Claim C7 (amended): when the step does not stall, the vision tier
yields no action, and the UI tier yields no action, the orchestrator
selects the predefined fallback action at index `step % 4` — where `step`
is the already-advanced 1-based step counter. (As originally stated the
claim is false: over four consecutive failing steps starting at step 1 the
visited positions are 1, 2, 3, 0, not 0, 1, 2, 3 — see the
counterexample.) -/
theorem c7_fallback_indexing (st : AgentState) (inp : StepInput)
    (hso : inp.screenshotOk = true)
    (hdet : detect_screen_loop st.hashHist inp.screenHash = false)
    (hva : visionAction inp = none)
    (hui : inp.uiOk = true →
      (uiTier st.searchInitiated inp.uiElements (st.step + 1)).1 = none) :
    (agentStep st inp).action
      = some (get_predefined_fallback_actions.getD ((st.step + 1) % 4) []) := by
  unfold agentStep
  rw [if_neg (by rw [hso, hdet]; simp)]
  simp only [hva, hso, if_true]
  by_cases huk : inp.uiOk = true
  · simp only [huk, if_true, hui huk]
    rfl
  · simp only [huk]
    rw [if_neg (by simp)]
    rfl

/-- Claim C7 (counterexample): fallback cycling does not start at position
0. From a fresh task, four consecutive steps on which the vision and UI
tiers both fail select the predefined fallback actions at positions
1, 2, 3, 0 — the first failing step picks `SCROLL down` (position 1), not
`TAP (540,150)` (position 0). -/
theorem c7_cycle_counterexample :
    ((agentStep initialState
        { screenshotOk := true, screenHash := strL "h1", visionReply := none
          wScale := 1, hScale := 1, uiOk := false, uiElements := [] }).action
      = some (strL "SCROLL down"))
    ∧ ((agentStep initialState
        { screenshotOk := true, screenHash := strL "h1", visionReply := none
          wScale := 1, hScale := 1, uiOk := false, uiElements := [] }).action
      ≠ some (get_predefined_fallback_actions.getD 0 []))
    ∧ ((agentStep initialState
        { screenshotOk := true, screenHash := strL "h1", visionReply := none
          wScale := 1, hScale := 1, uiOk := false, uiElements := [] }).state
      = { step := 1, searchInitiated := false, queryEntered := false
          hashHist := [strL "h1"], actionHist := [] })
    ∧ ((agentStep
        { step := 1, searchInitiated := false, queryEntered := false
          hashHist := [strL "h1"], actionHist := [] }
        { screenshotOk := true, screenHash := strL "h2", visionReply := none
          wScale := 1, hScale := 1, uiOk := false, uiElements := [] }).action
      = some (strL "TAP (100,300)"))
    ∧ ((agentStep
        { step := 1, searchInitiated := false, queryEntered := false
          hashHist := [strL "h1"], actionHist := [] }
        { screenshotOk := true, screenHash := strL "h2", visionReply := none
          wScale := 1, hScale := 1, uiOk := false, uiElements := [] }).state
      = { step := 2, searchInitiated := false, queryEntered := false
          hashHist := [strL "h1", strL "h2"], actionHist := [strL "TAP(100,300)"] })
    ∧ ((agentStep
        { step := 2, searchInitiated := false, queryEntered := false
          hashHist := [strL "h1", strL "h2"], actionHist := [strL "TAP(100,300)"] }
        { screenshotOk := true, screenHash := strL "h3", visionReply := none
          wScale := 1, hScale := 1, uiOk := false, uiElements := [] }).action
      = some (strL "TAP (540,400)"))
    ∧ ((agentStep
        { step := 2, searchInitiated := false, queryEntered := false
          hashHist := [strL "h1", strL "h2"], actionHist := [strL "TAP(100,300)"] }
        { screenshotOk := true, screenHash := strL "h3", visionReply := none
          wScale := 1, hScale := 1, uiOk := false, uiElements := [] }).state
      = { step := 3, searchInitiated := false, queryEntered := false
          hashHist := [strL "h1", strL "h2", strL "h3"]
          actionHist := [strL "TAP(100,300)", strL "TAP(540,400)"] })
    ∧ ((agentStep
        { step := 3, searchInitiated := false, queryEntered := false
          hashHist := [strL "h1", strL "h2", strL "h3"]
          actionHist := [strL "TAP(100,300)", strL "TAP(540,400)"] }
        { screenshotOk := true, screenHash := strL "h4", visionReply := none
          wScale := 1, hScale := 1, uiOk := false, uiElements := [] }).action
      = some (strL "TAP (540,150)")) := by
  refine ⟨by decide, by decide, by decide, by decide, by decide, by decide, by decide,
    by decide⟩

/-- Witness for claim C7: on a fresh task's first failing step the
selected action is the fallback entry at index 1. -/
theorem c7_fallback_indexing_witness :
    (agentStep initialState
        { screenshotOk := true, screenHash := strL "w1", visionReply := none
          wScale := 1, hScale := 1, uiOk := false, uiElements := [] }).action
      = some (get_predefined_fallback_actions.getD 1 []) :=
  c7_fallback_indexing initialState
    { screenshotOk := true, screenHash := strL "w1", visionReply := none
      wScale := 1, hScale := 1, uiOk := false, uiElements := [] }
    rfl (by decide) (by decide) (by decide)

theorem takeWhile_all {p : Char → Bool} {m : List Char} (h : ∀ x ∈ m, p x = true) :
    m.takeWhile p = m := by
  induction m with
  | nil => rfl
  | cons a l ih =>
    rw [List.takeWhile_cons, if_pos (h a (by simp)), ih (fun x hx => h x (by simp [hx]))]

/-- Claim C8: completion handling. (1) For a message starting with a
non-whitespace character and containing no newline, the result extracted
from `TASK_COMPLETE: <message>` is exactly the message. (2) On the claim's
example, `TASK_COMPLETE: Found 3 items` yields exactly `Found 3 items`.
(3, 4) When nothing follows the marker (bare `TASK_COMPLETE:` or
`TASK_COMPLETE`), the default completion message is used. (5) When the
vision tier selects an action containing the completion marker on a
non-stall step, the step reports the extracted message as its break
message. (6) Whenever a step produces a break message, the main loop
terminates immediately with exactly that message as the task result. -/
theorem c8_completion :
    (∀ (c : Char) (m : List Char), pyIsSpace c = false → '\n' ∉ m →
        completion_message (strL "TASK_COMPLETE:" ++ (' ' :: (c :: m))) = c :: m)
    ∧ completion_message (strL "TASK_COMPLETE: Found 3 items") = strL "Found 3 items"
    ∧ completion_message (strL "TASK_COMPLETE:") = strL "Task completed successfully"
    ∧ completion_message (strL "TASK_COMPLETE") = strL "Task completed successfully"
    ∧ (∀ (st : AgentState) (inp : StepInput) (act : List Char),
        inp.screenshotOk = true →
        detect_screen_loop st.hashHist inp.screenHash = false →
        visionAction inp = some act →
        containsSub act (strL "TASK_COMPLETE") = true →
        (agentStep st inp).breakMsg = some (completion_message act))
    ∧ (∀ (fuel maxSteps : ℕ) (st : AgentState) (inputs : ℕ → StepInput) (m : List Char),
        st.step < maxSteps →
        (agentStep st (inputs (st.step + 1))).stalled = false →
        (agentStep st (inputs (st.step + 1))).breakMsg = some m →
        runFrom (fuel + 1) maxSteps st inputs
          = (m, (agentStep st (inputs (st.step + 1))).state)) := by
  refine ⟨?_, by decide, by decide, by decide, ?_, ?_⟩
  · intro c m hc hnl
    have hpre : (strL "TASK_COMPLETE:").isPrefixOf
        (strL "TASK_COMPLETE:" ++ (' ' :: (c :: m))) = true := by
      rw [List.isPrefixOf_iff_prefix]
      exact List.prefix_append _ _
    have hcne : ¬(c = '\n') := by
      intro h
      rw [h] at hc
      exact absurd hc (by decide)
    have hmtw : ∀ x ∈ m, (!(decide (x = '\n'))) = true := by
      intro x hx
      simp only [Bool.not_eq_true', decide_eq_false_iff_not]
      intro he
      exact hnl (he ▸ hx)
    have htry : tryCompleteAt ('T' :: (strL "ASK_COMPLETE:" ++ (' ' :: (c :: m))))
        = some (c :: m) := by
      show tryCompleteAt (strL "TASK_COMPLETE:" ++ (' ' :: (c :: m))) = some (c :: m)
      unfold tryCompleteAt
      rw [if_pos hpre]
      rw [show (14 : ℕ) = (strL "TASK_COMPLETE:").length from rfl, List.drop_left]
      show backtrackWs ((' ' :: c :: m).takeWhile pyIsSpace).length (' ' :: c :: m)
        = some (c :: m)
      rw [List.takeWhile_cons, if_pos (by decide), List.takeWhile_cons, if_neg (by simp [hc])]
      simp only [List.length_cons, List.length_nil]
      unfold backtrackWs
      have hbw : bwAt 1 (' ' :: c :: m) = some (c :: m) := by
        unfold bwAt
        simp only [List.drop_succ_cons, List.drop_zero]
        rw [if_neg hcne]
        rw [takeWhile_all hmtw]
      rw [hbw]
    unfold completion_message
    conv_lhs => rw [show strL "TASK_COMPLETE:" ++ (' ' :: (c :: m))
        = 'T' :: (strL "ASK_COMPLETE:" ++ (' ' :: (c :: m))) from rfl]
    unfold searchCompletion
    rw [htry]
  · intro st inp act hso hdet hva hcm
    unfold agentStep
    rw [if_neg (by rw [hso, hdet]; simp)]
    simp only [hva, hso, if_true, hcm]
  · intro fuel maxSteps st inputs m hlt hns hbm
    unfold runFrom
    rw [if_neg (not_le.mpr hlt)]
    simp only [hns, hbm]
    rw [if_neg (by simp)]

/-- Witness for claim C8: the message `Found 3 items` is extracted from
`TASK_COMPLETE: Found 3 items` by the general extraction lemma. -/
theorem c8_completion_witness :
    completion_message (strL "TASK_COMPLETE:" ++ (' ' :: ('F' :: strL "ound 3 items")))
      = 'F' :: strL "ound 3 items" :=
  c8_completion.1 'F' (strL "ound 3 items") (by decide) (by decide)

theorem execute_completed_iff (act : List Char) (hist : List (List Char)) :
    (execute_parsed_action act hist).completed = true
      ↔ (searchTapRaw (selectActionLine (pyStrip act)) = none
          ∧ searchTypeFull (selectActionLine (pyStrip act)) = none
          ∧ containsCI (selectActionLine (pyStrip act)) (strL "SCROLL") = false
          ∧ containsCI (selectActionLine (pyStrip act)) (strL "TASK_COMPLETE") = true) := by
  unfold execute_parsed_action
  rcases hs : searchTapRaw (selectActionLine (pyStrip act)) with _ | ⟨d1, d2⟩
  · simp only []
    rcases ht : searchTypeFull (selectActionLine (pyStrip act)) with _ | txt
    · simp only []
      by_cases hsc : containsCI (selectActionLine (pyStrip act)) (strL "SCROLL") = true
      · rw [if_pos hsc]
        simp [hsc]
      · rw [if_neg hsc]
        rw [Bool.not_eq_true] at hsc
        by_cases htc : containsCI (selectActionLine (pyStrip act))
            (strL "TASK_COMPLETE") = true
        · rw [if_pos htc]
          simp [hsc, htc]
        · rw [if_neg htc]
          simp [hsc, htc]
    · simp
  · simp only []
    by_cases hrep : is_action_repeating hist (selectActionLine (pyStrip act)) = true
    · rw [if_pos hrep]
      simp
    · rw [if_neg hrep]
      simp

theorem execute_complete_result (act : List Char) (hist : List (List Char))
    (h1 : searchTapRaw (selectActionLine (pyStrip act)) = none)
    (h2 : searchTypeFull (selectActionLine (pyStrip act)) = none)
    (h3 : containsCI (selectActionLine (pyStrip act)) (strL "SCROLL") = false)
    (h4 : containsCI (selectActionLine (pyStrip act)) (strL "TASK_COMPLETE") = true) :
    execute_parsed_action act hist
      = { completed := true, effects := [], history := hist } := by
  unfold execute_parsed_action
  rw [h1]
  simp only []
  rw [h2]
  simp only []
  rw [if_neg (by simp [h3]), if_pos h4]

/-- Claim C10: the coordinator's return value is the completion signal.
(1) `execute_parsed_action` returns True exactly when the selected action
text — the first line matching an action pattern, or the whole cleaned
input when no line matches — matches no TAP coordinate pattern, no quoted
TYPE pattern, contains no `SCROLL` (case-insensitively), and does contain
`TASK_COMPLETE` (case-insensitively); so tap, type and scroll take
precedence over a completion marker in the same text. (2) Every tap
candidate returns False. (3) Every type action returns False after
dispatching the text input. (4) Every scroll action returns False after
dispatching the scroll. (5) A True return dispatches nothing. -/
theorem c10_completion_signal :
    (∀ (act : List Char) (hist : List (List Char)),
        (execute_parsed_action act hist).completed = true
          ↔ (searchTapRaw (selectActionLine (pyStrip act)) = none
              ∧ searchTypeFull (selectActionLine (pyStrip act)) = none
              ∧ containsCI (selectActionLine (pyStrip act)) (strL "SCROLL") = false
              ∧ containsCI (selectActionLine (pyStrip act)) (strL "TASK_COMPLETE") = true))
    ∧ (∀ (act : List Char) (hist : List (List Char)) (d1 d2 : List Char),
        searchTapRaw (selectActionLine (pyStrip act)) = some (d1, d2) →
        (execute_parsed_action act hist).completed = false)
    ∧ (∀ (act : List Char) (hist : List (List Char)) (txt : List Char),
        searchTapRaw (selectActionLine (pyStrip act)) = none →
        searchTypeFull (selectActionLine (pyStrip act)) = some txt →
        (execute_parsed_action act hist).completed = false
          ∧ (execute_parsed_action act hist).effects = [DeviceEffect.typeText txt])
    ∧ (∀ (act : List Char) (hist : List (List Char)),
        searchTapRaw (selectActionLine (pyStrip act)) = none →
        searchTypeFull (selectActionLine (pyStrip act)) = none →
        containsCI (selectActionLine (pyStrip act)) (strL "SCROLL") = true →
        (execute_parsed_action act hist).completed = false
          ∧ (execute_parsed_action act hist).effects
              = [DeviceEffect.scroll (scrollDirOf (selectActionLine (pyStrip act)))])
    ∧ (∀ (act : List Char) (hist : List (List Char)),
        (execute_parsed_action act hist).completed = true →
        (execute_parsed_action act hist).effects = []) := by
  refine ⟨execute_completed_iff, ?_, ?_, ?_, ?_⟩
  · intro act hist d1 d2 hs
    unfold execute_parsed_action
    rw [hs]
    simp only []
    by_cases hrep : is_action_repeating hist (selectActionLine (pyStrip act)) = true
    · rw [if_pos hrep]
    · rw [if_neg hrep]
  · intro act hist txt hs ht
    unfold execute_parsed_action
    rw [hs]
    simp only []
    rw [ht]
    exact ⟨rfl, rfl⟩
  · intro act hist hs ht hsc
    unfold execute_parsed_action
    rw [hs]
    simp only []
    rw [ht]
    simp only []
    rw [if_pos hsc]
    exact ⟨rfl, rfl⟩
  · intro act hist h
    obtain ⟨h1, h2, h3, h4⟩ := (execute_completed_iff act hist).mp h
    rw [execute_complete_result act hist h1 h2 h3 h4]

/-- Witness for claim C10: a bare completion action returns True, and a
scroll action returns False after dispatching a scroll. -/
theorem c10_completion_signal_witness :
    ((execute_parsed_action (strL "TASK_COMPLETE: done") []).completed = true)
    ∧ ((execute_parsed_action (strL "SCROLL down") []).completed = false
        ∧ (execute_parsed_action (strL "SCROLL down") []).effects
            = [DeviceEffect.scroll
                (scrollDirOf (selectActionLine (pyStrip (strL "SCROLL down"))))]) := by
  constructor
  · exact (c10_completion_signal.1 (strL "TASK_COMPLETE: done") []).mpr
      ⟨by decide, by decide, by decide, by decide⟩
  · exact c10_completion_signal.2.2.2.1 (strL "SCROLL down") []
      (by decide) (by decide) (by decide)
